import Mathlib

/-!
# Request/response correlation of `request.go`

A shallow embedding of the info-query ("iq") correlation layer of the client:
the identifier generator, the waiter registry (`waitResponse`,
`cancelResponse`, `receiveResponse`), the asynchronous dispatcher
(`sendIQAsync`) and the bounded wait (`sendIQ`).

Go values are embedded as follows.

* `map[string]T` is an association list read with `mapGet`, written with
  `mapSet` and shrunk with `mapDelete`.
* `interface{}` attribute values are the sum type `AttrValue`; the type
  assertion `.(string)` is `assertString`, returning the Go pair `(value, ok)`.
* A channel is a reference (an index) into a heap of channel cells; `make`
  appends a cell, `close` and send update the cell in place.
* `uint64` is a `Nat` reduced modulo `2 ^ 64`; `time.Duration` is an `Int`
  count of nanoseconds.
* A Go panic and a goroutine that can not make progress are the two values of
  `Fault`; every operation that can panic or block returns `Except Fault _`.
* Concurrent callers are a schedule: a list of `RegistryStep`s run by
  `runSteps` over a `Session`. A step is what one caller does without another
  caller in between: a critical section of the registry lock, or the send
  `waiter <- data` that `receiveResponse` makes after it has unlocked. The
  session also records the slots handed out by `waitResponse` and not yet
  canceled, and the sends that have been looked up and not yet made.
-/

set_option autoImplicit false

namespace Whatsmeow

/-! ## Data model -/

/-- Modelled from the spec: the target address type `waBinary.JID`, declared in
the `binary` package; only its identity matters here. -/
structure JID where
  User : String
  Server : String
deriving DecidableEq, Repr

/-- Values an attribute of a node can hold (Go `interface{}`). -/
inductive AttrValue where
  | str (s : String)
  | jid (j : JID)
  | int (i : Int)
  | bool (b : Bool)
deriving DecidableEq, Repr

/-- Modelled from the spec: the payload of a node (`Content interface{}`), which
this layer never inspects. -/
inductive Payload where
  | null
  | bytes (b : List Nat)
  | text (s : String)
deriving DecidableEq, Repr

/-- Modelled from the spec: the wire unit `waBinary.Node`, a tag, a mapping of
named attributes and a payload. -/
structure Node where
  Tag : String
  Attrs : List (String × AttrValue)
  Content : Payload
deriving DecidableEq, Repr

/-- Modelled from the spec: the error values of the package. The three
sentinels are declared outside `request.go`; `wrap` is `fmt.Errorf` with a
`%w` verb and `other` stands for errors of the transport and of contexts. -/
inductive Error where
  | ErrIQUnexpectedResponse
  | ErrIQError
  | ErrIQTimedOut
  | other (msg : String)
  | wrap (inner : Error) (rest : String)
deriving DecidableEq, Repr

/-- Go `errors.Is`: the error or one of the errors it wraps is the target. -/
def Error.Is : Error → Error → Bool
  | .wrap inner rest, target =>
      decide (Error.wrap inner rest = target) || Error.Is inner target
  | e, target => decide (e = target)

/-- A panic of the Go runtime, or an operation that can not complete. -/
inductive Fault where
  | panicked
  | blocked
deriving DecidableEq, Repr

deriving instance DecidableEq for Except

/-- A buffered channel of node pointers: its capacity, its queue and whether
it has been closed. -/
structure Chan where
  cap : Nat
  buf : List Node
  closed : Bool
deriving DecidableEq, Repr

/-- A `context.Context` as `sendIQ` sees it: `Err()` is `nil` until the
context is done, and `Done()` is closed exactly when `Err()` is not `nil`. -/
structure Context where
  err : Option Error
deriving DecidableEq, Repr

/-- Go `context.Background()`: never done. -/
def Context.Background : Context := ⟨none⟩

/-- The `infoQuery` struct. `Typ` is the field `Type`. -/
structure infoQuery where
  Namespace : String
  Typ : String
  To : JID
  ID : String
  Content : Payload
  Timeout : Int
  Context : Option Context
deriving DecidableEq, Repr

/-- The fields of `Client` that `request.go` uses, together with the heap of
channel cells the waiters point into. -/
structure Client where
  uniqueID : String
  idCounter : Nat
  responseWaiters : List (String × Nat)
  chans : List Chan
deriving DecidableEq, Repr

/-! ## Go maps -/

/-- Go `m[k]` with the comma-ok form: the value stored under `k`, if any. -/
def mapGet {β : Type} : List (String × β) → String → Option β
  | [], _ => none
  | (k, v) :: rest, key => if k = key then some v else mapGet rest key

/-- Go `delete(m, k)`. -/
def mapDelete {β : Type} (m : List (String × β)) (key : String) : List (String × β) :=
  m.filter (fun e => decide (e.1 ≠ key))

/-- Go `m[k] = v`: any earlier entry for `k` is replaced. -/
def mapSet {β : Type} (m : List (String × β)) (key : String) (v : β) : List (String × β) :=
  (key, v) :: mapDelete m key

/-- Go type assertion `x.(string)` in its two-result form, on the result of an
attribute lookup: a missing attribute is the nil interface. -/
def assertString : Option AttrValue → String × Bool
  | some (.str s) => (s, true)
  | _ => ("", false)

/-! ## Channels -/

/-- Go `make(chan *Node, n)`: a new open empty cell at the end of the heap. -/
def makeChan (heap : List Chan) (n : Nat) : List Chan × Nat :=
  (heap ++ [⟨n, [], false⟩], heap.length)

/-- Go `close(ch)`: panics on a nil or an already closed channel. -/
def closeChan (heap : List Chan) (ch : Nat) : Except Fault (List Chan) :=
  match heap[ch]? with
  | none => .error .panicked
  | some c =>
      if c.closed then .error .panicked
      else .ok (heap.set ch { c with closed := true })

/-- Go `ch <- data` with no receiver parked on the channel: panics on a closed
channel, completes when the buffer has room, blocks otherwise. -/
def chanSend (heap : List Chan) (ch : Nat) (data : Node) : Except Fault (List Chan) :=
  match heap[ch]? with
  | none => .error .blocked
  | some c =>
      if c.closed then .error .panicked
      else if c.buf.length < c.cap then .ok (heap.set ch { c with buf := c.buf ++ [data] })
      else .error .blocked

/-- Go `<-ch` as a select case. `none`: the case is not ready. Otherwise the
new heap and the received pointer, which is nil on a closed drained channel. -/
def chanRecv (heap : List Chan) (ch : Nat) : Option (List Chan × Option Node) :=
  match heap[ch]? with
  | none => none
  | some c =>
      match c.buf with
      | x :: rest => some (heap.set ch { c with buf := rest }, some x)
      | [] => if c.closed then some (heap, none) else none

/-! ## Identifier generator -/

/-- Go `strconv.FormatUint(n, 10)`. -/
def formatUint (n : Nat) : String := Nat.repr n

/-- The method `generateRequestID`: `atomic.AddUint64` returns the new counter
value. -/
def generateRequestID (cli : Client) : Client × String :=
  let c := (cli.idCounter + 1) % 2 ^ 64
  ({ cli with idCounter := c }, cli.uniqueID ++ formatUint c)

/-- The identifiers returned by `n` successive calls of `generateRequestID`,
oldest first, with the client they leave. -/
def generateMany : Nat → Client → Client × List String
  | 0, cli => (cli, [])
  | n + 1, cli =>
      let r := generateRequestID cli
      let rs := generateMany n r.1
      (rs.1, r.2 :: rs.2)

/-! ## Waiter registry -/

/-- The method `waitResponse`. -/
def waitResponse (cli : Client) (reqID : String) : Client × Nat :=
  let (heap, ch) := makeChan cli.chans 1
  ({ cli with chans := heap, responseWaiters := mapSet cli.responseWaiters reqID ch }, ch)

/-- The method `cancelResponse`. -/
def cancelResponse (cli : Client) (reqID : String) (ch : Nat) : Except Fault Client :=
  match closeChan cli.chans ch with
  | .error f => .error f
  | .ok heap =>
      .ok { cli with chans := heap, responseWaiters := mapDelete cli.responseWaiters reqID }

/-- The method `receiveResponse`. -/
def receiveResponse (cli : Client) (data : Node) : Except Fault (Client × Bool) :=
  let (id, ok) := assertString (mapGet data.Attrs "id")
  if !ok || data.Tag != "iq" then .ok (cli, false)
  else
    match mapGet cli.responseWaiters id with
    | none => .ok (cli, false)
    | some waiter =>
        let cli1 := { cli with responseWaiters := mapDelete cli.responseWaiters id }
        match chanSend cli1.chans waiter data with
        | .error f => .error f
        | .ok heap => .ok ({ cli1 with chans := heap }, true)

/-- The method `receiveResponse` up to its second `Unlock`: the filter and,
under the lock, the look-up and the delete. The second component is the
waiter the method goes on to send to, or `none` when it has returned false. -/
def receiveLocked (cli : Client) (data : Node) : Client × Option Nat :=
  let (id, ok) := assertString (mapGet data.Attrs "id")
  if !ok || data.Tag != "iq" then (cli, none)
  else
    match mapGet cli.responseWaiters id with
    | none => (cli, none)
    | some waiter =>
        ({ cli with responseWaiters := mapDelete cli.responseWaiters id }, some waiter)

/-- The last two statements of `receiveResponse`, which run after the lock is
released: `waiter <- data` and `return true`. -/
def receiveSend (cli : Client) (waiter : Nat) (data : Node) : Except Fault (Client × Bool) :=
  match chanSend cli.chans waiter data with
  | .error f => .error f
  | .ok heap => .ok ({ cli with chans := heap }, true)

/-! ## Dispatcher and bounded wait -/

/-- The node `sendIQAsync` hands to the transport for a query whose `ID` is
already set. -/
def iqNode (query : infoQuery) : Node :=
  { Tag := "iq"
    Attrs := [("id", .str query.ID), ("xmlns", .str query.Namespace),
              ("type", .str query.Typ), ("to", .jid query.To)]
    Content := query.Content }

/-- The query after the first statement of `sendIQAsync`: an empty `ID` is
replaced by a generated one. -/
def assignID (cli : Client) (query : infoQuery) : Client × infoQuery :=
  if query.ID.length = 0 then
    let r := generateRequestID cli
    (r.1, { query with ID := r.2 })
  else (cli, query)

/-- The method `sendIQAsync`. The transport `sendNode` is a parameter: it
returns `nil` (`none`) or an error. The result is the Go pair
`(channel, error)`. -/
def sendIQAsync (cli : Client) (sendNode : Node → Option Error) (query : infoQuery) :
    Except Fault (Client × Option Nat × Option Error) :=
  let (cli0, query) := assignID cli query
  let (cli1, waiter) := waitResponse cli0 query.ID
  match sendNode (iqNode query) with
  | some err =>
      match cancelResponse cli1 query.ID waiter with
      | .error f => .error f
      | .ok cli2 => .ok (cli2, none, some err)
  | none => .ok (cli1, some waiter, none)

/-- Go `time.Minute`, in nanoseconds. -/
def Minute : Int := 60 * 1000000000

/-- The body of the first case of the select in `sendIQ`: what is returned for
a node `res` received from the waiter. `xmlString` is `Node.XMLString`. -/
def classify (xmlString : Node → String) (res : Node) : Option Node × Option Error :=
  let (resType, _) := assertString (mapGet res.Attrs "type")
  if res.Tag != "iq" || (resType != "result" && resType != "error") then
    (some res, some (.wrap .ErrIQUnexpectedResponse
      (" tag=" ++ res.Tag ++ " type=" ++ resType)))
  else if resType == "error" then
    (some res, some (.wrap .ErrIQError (": " ++ xmlString res)))
  else (some res, none)

/-- The case of the select statement of `sendIQ` that is taken. -/
inductive SelectCase where
  | recv
  | ctxDone
  | timeAfter
deriving DecidableEq, Repr

/-- The inbound read path running beside a waiting `sendIQ`: it calls
`receiveResponse` on each inbound node in turn and drops the boolean. -/
def deliverAll : Client → List Node → Except Fault Client
  | cli, [] => .ok cli
  | cli, data :: rest =>
      match receiveResponse cli data with
      | .error f => .error f
      | .ok (cli1, _) => deliverAll cli1 rest

/-- The timeout `sendIQ` waits for. -/
def effectiveTimeout (query : infoQuery) : Int :=
  if query.Timeout = 0 then 1 * Minute else query.Timeout

/-- The context `sendIQ` waits on. -/
def effectiveContext (query : infoQuery) : Context :=
  match query.Context with
  | none => Context.Background
  | some c => c

/-- The method `sendIQ`. Besides the transport and `XMLString`, the
environment of the call is explicit: `inbound` are the nodes the read path
hands to `receiveResponse` between the dispatch and the select, `elapsed` is
the time in nanoseconds the select has waited when it fires, and `taken` is
the case of the select that fires. A case that is not ready can not fire:
the call is then `blocked`. The result is the client afterward and the Go
pair `(node, error)`. -/
def sendIQ (cli : Client) (sendNode : Node → Option Error) (xmlString : Node → String)
    (query : infoQuery) (inbound : List Node) (elapsed : Int) (taken : SelectCase) :
    Except Fault (Client × Option Node × Option Error) :=
  match sendIQAsync cli sendNode query with
  | .error f => .error f
  | .ok (cli1, _, some err) => .ok (cli1, none, some err)
  | .ok (cli1, resChan, none) =>
      let timeout := effectiveTimeout query
      let ctx := effectiveContext query
      match deliverAll cli1 inbound with
      | .error f => .error f
      | .ok cli2 =>
          match taken with
          | .recv =>
              match resChan.bind (chanRecv cli2.chans) with
              | none => .error .blocked
              | some (_, none) => .error .panicked
              | some (heap, some res) =>
                  let r := classify xmlString res
                  .ok ({ cli2 with chans := heap }, r.1, r.2)
          | .ctxDone =>
              match ctx.err with
              | none => .error .blocked
              | some e => .ok (cli2, none, some e)
          | .timeAfter =>
              if timeout ≤ elapsed then .ok (cli2, none, some .ErrIQTimedOut)
              else .error .blocked

/-! ## A concrete session

A client with one pending request "pending-7", a query with the namespace
"test", the type "get" and the target "peer@example", and responses to it.
-/

/-- A client whose registry already holds one waiter. -/
def demoClient : Client :=
  { uniqueID := "3EB0.", idCounter := 41,
    responseWaiters := [("pending-7", 0)], chans := [⟨1, [], false⟩] }

/-- A query with an explicit identifier. -/
def demoQuery : infoQuery :=
  { Namespace := "test", Typ := "get", To := ⟨"peer", "example"⟩, ID := "q-1",
    Content := .null, Timeout := 10000000, Context := none }

/-- A response to `demoQuery` of the given type. -/
def demoResponse (ty : String) : Node :=
  { Tag := "iq", Attrs := [("id", .str "q-1"), ("type", .str ty)], Content := .null }

/-- A transport that accepts every node. -/
def sendAccept : Node → Option Error := fun _ => none

/-- A transport that refuses every node. -/
def sendRefuse : Node → Option Error := fun _ => some (.other "websocket not connected")

/-- A rendering of nodes that shows the tag only. -/
def showTag : Node → String := fun n => "<" ++ n.Tag ++ "/>"

/-- A context that has been canceled. -/
def canceledContext : Context := ⟨some (.other "context canceled")⟩

/-- The client `demoClient` once `demoQuery` is registered. -/
def demoRegistered : Client :=
  { uniqueID := "3EB0.", idCounter := 41,
    responseWaiters := [("q-1", 1), ("pending-7", 0)],
    chans := [⟨1, [], false⟩, ⟨1, [], false⟩] }

/-- The client `demoRegistered` once the result for "q-1" is delivered. -/
def demoDelivered : Client :=
  { uniqueID := "3EB0.", idCounter := 41,
    responseWaiters := [("pending-7", 0)],
    chans := [⟨1, [], false⟩, ⟨1, [demoResponse "result"], false⟩] }

/-! ## Auxiliary definitions for the proofs -/

/-- The client after a registration immediately undone by `cancelResponse`. -/
def rolledBack (cli : Client) (reqID : String) : Client :=
  { cli with
    chans := cli.chans ++ [⟨1, [], true⟩]
    responseWaiters := mapDelete cli.responseWaiters reqID }

/-- The client after `waitResponse cli reqID` followed by the delivery of
`data` to the new slot. -/
def delivered (cli : Client) (reqID : String) (data : Node) : Client :=
  { cli with
    chans := cli.chans ++ [⟨1, [data], false⟩]
    responseWaiters := mapDelete cli.responseWaiters reqID }

/-- The value of a decimal digit character. -/
def digitValue (c : Char) : Nat := c.toNat - 48

/-- The number a string of decimal digits denotes. -/
def decodeDigits (cs : List Char) : Nat :=
  cs.foldl (fun a c => 10 * a + digitValue c) 0

/-- One step of a schedule over the waiter registry: what one caller does
with no other caller in between. `wait` and `cancel` are the calls of
`waitResponse` and `cancelResponse`, each one critical section. A call of
`receiveResponse` is two steps, because the method unlocks before it sends:
`lookup` is the call up to the `Unlock`, `send` is the `waiter <- data` that
follows it. -/
inductive RegistryStep where
  | wait (reqID : String)
  | lookup (data : Node)
  | send (waiter : Nat) (data : Node)
  | cancel (reqID : String) (ch : Nat)
deriving DecidableEq, Repr

/-- A client together with the calls that are under way. `inflight` holds the
dispatches that have registered and have not canceled: the id and the slot
`waitResponse` returned for it. `sending` holds the calls of
`receiveResponse` that have unlocked and have not sent yet: the waiter they
found and the node they carry. -/
structure Session where
  cli : Client
  inflight : List (String × Nat)
  sending : List (Nat × Node)
deriving DecidableEq, Repr

/-- One step of a schedule. `cancelResponse` is called the way `sendIQAsync`
calls it, once, with an id and the slot registered for it by the same caller,
and a send is made by a call of `receiveResponse` that has looked its waiter
up; a cancel step for a pair that is not in flight, or a send step that no
call is about to make, is not part of any schedule (`none`). A step that
panics or blocks is `some (.error _)`. -/
def applyStep (s : Session) : RegistryStep → Option (Except Fault Session)
  | .wait reqID =>
      let r := waitResponse s.cli reqID
      some (.ok ⟨r.1, (reqID, r.2) :: s.inflight, s.sending⟩)
  | .lookup data =>
      let r := receiveLocked s.cli data
      match r.2 with
      | none => some (.ok ⟨r.1, s.inflight, s.sending⟩)
      | some waiter => some (.ok ⟨r.1, s.inflight, (waiter, data) :: s.sending⟩)
  | .send waiter data =>
      if (waiter, data) ∈ s.sending then
        match receiveSend s.cli waiter data with
        | .error f => some (.error f)
        | .ok r => some (.ok ⟨r.1, s.inflight, s.sending.erase (waiter, data)⟩)
      else none
  | .cancel reqID ch =>
      if (reqID, ch) ∈ s.inflight then
        match cancelResponse s.cli reqID ch with
        | .error f => some (.error f)
        | .ok cli1 =>
            some (.ok ⟨cli1, s.inflight.filter (fun p => decide (p.2 ≠ ch)), s.sending⟩)
      else none

/-- A schedule run from a session, stopping at the first fault. -/
def runSteps : Session → List RegistryStep → Option (Except Fault Session)
  | s, [] => some (.ok s)
  | s, st :: rest =>
      match applyStep s st with
      | none => none
      | some (.error f) => some (.error f)
      | some (.ok s1) => runSteps s1 rest

/-- Every slot stored in the registry is open and has an empty buffer of
capacity 1. -/
def SlotsReady (cli : Client) : Prop :=
  ∀ (k : String) (ch : Nat), mapGet cli.responseWaiters k = some ch →
    cli.chans[ch]? = some ⟨1, [], false⟩

/-- No two ids of the registry share a slot. -/
def SlotsDistinct (cli : Client) : Prop :=
  ∀ (k1 k2 : String) (ch : Nat), mapGet cli.responseWaiters k1 = some ch →
    mapGet cli.responseWaiters k2 = some ch → k1 = k2

/-- Every slot stored in the registry is a cell of the heap. -/
def SlotsAllocated (cli : Client) : Prop :=
  ∀ (k : String) (ch : Nat), mapGet cli.responseWaiters k = some ch →
    ch < cli.chans.length

/-- The invariant of schedules: the registered slots are ready and distinct,
a slot in flight is open and registered under no id but its own, and a slot
about to be sent to is a cell of the heap that is no longer registered. -/
structure SessionInv (s : Session) : Prop where
  ready : SlotsReady s.cli
  distinct : SlotsDistinct s.cli
  live : ∀ p : String × Nat, p ∈ s.inflight →
    ∃ c : Chan, s.cli.chans[p.2]? = some c ∧ c.closed = false
  own : ∀ p : String × Nat, p ∈ s.inflight →
    ∀ k : String, mapGet s.cli.responseWaiters k = some p.2 → k = p.1
  parked : ∀ p : Nat × Node, p ∈ s.sending →
    p.1 < s.cli.chans.length ∧ ∀ k : String, mapGet s.cli.responseWaiters k ≠ some p.1

/-- A client with no pending request. -/
def idleClient : Client :=
  { uniqueID := "3EB0.", idCounter := 0, responseWaiters := [], chans := [] }

/-- The race of a delivery with a failed dispatch, up to the send: a caller
registers "q-1" (slot 0); the read path takes a response for "q-1" through
the look-up and the `Unlock`; the send of the caller fails and it cancels. -/
def raceBeforeSend : List RegistryStep :=
  [.wait "q-1", .lookup (demoResponse "result"), .cancel "q-1" 0]

/-- The race in full: the read path then makes its send to slot 0. -/
def raceSchedule : List RegistryStep :=
  raceBeforeSend ++ [.send 0 (demoResponse "result")]

/-- The session `raceBeforeSend` leaves when run from `idleClient`: the
registry is empty, slot 0 is closed, and the send to it is still to come. -/
def raceParked : Session :=
  { cli := { uniqueID := "3EB0.", idCounter := 0, responseWaiters := [],
             chans := [⟨1, [], true⟩] }
    inflight := []
    sending := [(0, demoResponse "result")] }

/-- The registry entry of an id as an observer sees it: whether it is present
and, if so, its slot and the cell of that slot (capacity, buffered nodes,
open or closed). -/
def pendingEntry (cli : Client) (id : String) : Option (Nat × Option Chan) :=
  (mapGet cli.responseWaiters id).map (fun ch => (ch, cli.chans[ch]?))

/-- The slot `ch` is registered under no id but `rid`, and every node in its
buffer has tag "iq" and the string id `rid`. -/
def SlotCorrelated (cli : Client) (ch : Nat) (rid : String) : Prop :=
  (∀ k : String, mapGet cli.responseWaiters k = some ch → k = rid) ∧
  ∃ c : Chan, cli.chans[ch]? = some c ∧
    ∀ n : Node, n ∈ c.buf → n.Tag = "iq" ∧ mapGet n.Attrs "id" = some (.str rid)

/-- The classification of `sendIQ` is the one the type attribute `ty` alone
determines: no error exactly for "result", an error wrapping `ErrIQError`
exactly for "error", an error wrapping `ErrIQUnexpectedResponse` exactly
when the type is neither. -/
def ClassifiedByType (ty : Option AttrValue) (err : Option Error) : Prop :=
  (err = none ↔ ty = some (.str "result")) ∧
  ((∃ e : Error, err = some e ∧ e.Is .ErrIQError = true) ↔ ty = some (.str "error")) ∧
  ((∃ e : Error, err = some e ∧ e.Is .ErrIQUnexpectedResponse = true) ↔
    (ty ≠ some (.str "result") ∧ ty ≠ some (.str "error")))

/-! ## The concrete session, evaluated -/

theorem demo_generateRequestID :
    (generateRequestID demoClient).2 = "3EB0.42" := by decide

theorem demo_sendIQAsync :
    sendIQAsync demoClient sendAccept demoQuery = .ok (demoRegistered, some 1, none) := by
  decide

theorem demo_receiveResponse :
    receiveResponse demoRegistered (demoResponse "result") = .ok (demoDelivered, true) := by
  decide

theorem demo_receiveResponse_again :
    receiveResponse demoDelivered (demoResponse "result") = .ok (demoDelivered, false) := by
  decide

/-! ## Lemmas on maps and channels -/

theorem mapGet_mapDelete_self {β : Type} (m : List (String × β)) (key : String) :
    mapGet (mapDelete m key) key = none := by
  induction m with
  | nil => rfl
  | cons e rest ih =>
      obtain ⟨k, v⟩ := e
      by_cases h : k = key
      · simpa [mapDelete, h] using ih
      · simpa [mapDelete, h, mapGet] using ih

theorem mapGet_mapSet_self {β : Type} (m : List (String × β)) (key : String) (v : β) :
    mapGet (mapSet m key v) key = some v := by
  simp [mapSet, mapGet]

theorem mapDelete_mapDelete {β : Type} (m : List (String × β)) (key : String) :
    mapDelete (mapDelete m key) key = mapDelete m key := by
  simp [mapDelete, List.filter_filter]

theorem mapDelete_mapSet {β : Type} (m : List (String × β)) (key : String) (v : β) :
    mapDelete (mapSet m key v) key = mapDelete m key := by
  have h := mapDelete_mapDelete m key
  simp only [mapDelete] at h
  simp [mapSet, mapDelete, List.filter_cons, h]

theorem heap_getElem_new (heap : List Chan) (c : Chan) :
    (heap ++ [c])[heap.length]? = some c := by
  simp

theorem heap_set_new (heap : List Chan) (c d : Chan) :
    (heap ++ [c]).set heap.length d = heap ++ [d] := by
  simp [List.set_append]

/-- A node whose string id is not registered is not handled, and nothing
changes. -/
theorem receiveResponse_absent (cli : Client) (data : Node) (id : String)
    (hid : mapGet data.Attrs "id" = some (.str id))
    (habs : mapGet cli.responseWaiters id = none) :
    receiveResponse cli data = .ok (cli, false) := by
  simp only [receiveResponse, hid, assertString, habs]
  split <;> rfl

/-- A node with tag "iq" whose string id is registered with an open empty slot
is put into that slot, and the entry is removed. -/
theorem receiveResponse_present (cli : Client) (data : Node) (id : String) (ch : Nat)
    (c : Chan) (htag : data.Tag = "iq")
    (hid : mapGet data.Attrs "id" = some (.str id))
    (hreg : mapGet cli.responseWaiters id = some ch)
    (hch : cli.chans[ch]? = some c) (hopen : c.closed = false)
    (hroom : c.buf.length < c.cap) :
    receiveResponse cli data =
      .ok ({ cli with
              responseWaiters := mapDelete cli.responseWaiters id
              chans := cli.chans.set ch { c with buf := c.buf ++ [data] } }, true) := by
  simp [receiveResponse, hid, assertString, htag, hreg, chanSend, hch, hopen, hroom]

theorem waitResponse_eq (cli : Client) (reqID : String) :
    waitResponse cli reqID =
      ({ cli with
          chans := cli.chans ++ [⟨1, [], false⟩]
          responseWaiters := mapSet cli.responseWaiters reqID cli.chans.length },
        cli.chans.length) := rfl

theorem cancelResponse_waitResponse (cli : Client) (reqID : String) :
    cancelResponse (waitResponse cli reqID).1 reqID (waitResponse cli reqID).2 =
      .ok (rolledBack cli reqID) := by
  simp [waitResponse_eq, cancelResponse, closeChan, rolledBack, mapDelete_mapSet,
    List.set_append]

theorem sendIQAsync_ok (cli : Client) (sendNode : Node → Option Error) (query : infoQuery)
    (hsend : sendNode (iqNode (assignID cli query).2) = none) :
    sendIQAsync cli sendNode query =
      .ok ((waitResponse (assignID cli query).1 (assignID cli query).2.ID).1,
        some (assignID cli query).1.chans.length, none) := by
  simp [sendIQAsync, hsend, waitResponse_eq]

theorem sendIQAsync_fail (cli : Client) (sendNode : Node → Option Error) (query : infoQuery)
    (e : Error) (hsend : sendNode (iqNode (assignID cli query).2) = some e) :
    sendIQAsync cli sendNode query =
      .ok (rolledBack (assignID cli query).1 (assignID cli query).2.ID, none, some e) := by
  have h := cancelResponse_waitResponse (assignID cli query).1 (assignID cli query).2.ID
  simp only [sendIQAsync, hsend]
  simp only [h]

theorem classify_fst (xmlString : Node → String) (res : Node) :
    (classify xmlString res).1 = some res := by
  unfold classify
  split
  split <;> [rfl; (split <;> rfl)]

theorem classify_result (xmlString : Node → String) (res : Node) (htag : res.Tag = "iq")
    (hty : mapGet res.Attrs "type" = some (.str "result")) :
    classify xmlString res = (some res, none) := by
  simp [classify, hty, assertString, htag]

theorem classify_error (xmlString : Node → String) (res : Node) (htag : res.Tag = "iq")
    (hty : mapGet res.Attrs "type" = some (.str "error")) :
    classify xmlString res =
      (some res, some (.wrap .ErrIQError (": " ++ xmlString res))) := by
  simp [classify, hty, assertString, htag]

theorem classify_unexpected (xmlString : Node → String) (res : Node)
    (hne : ¬ (res.Tag = "iq" ∧ (mapGet res.Attrs "type" = some (.str "result") ∨
      mapGet res.Attrs "type" = some (.str "error")))) :
    classify xmlString res =
      (some res, some (.wrap .ErrIQUnexpectedResponse
        (" tag=" ++ res.Tag ++ " type=" ++ (assertString (mapGet res.Attrs "type")).1))) := by
  have hcond : (res.Tag != "iq" || ((assertString (mapGet res.Attrs "type")).1 != "result" &&
      (assertString (mapGet res.Attrs "type")).1 != "error")) = true := by
    by_cases htag : res.Tag = "iq"
    · have h2 : ¬ (mapGet res.Attrs "type" = some (.str "result") ∨
          mapGet res.Attrs "type" = some (.str "error")) := fun h => hne ⟨htag, h⟩
      cases hv : mapGet res.Attrs "type" with
      | none => simp [assertString]
      | some v =>
          cases v with
          | str t =>
              rw [hv] at h2
              have h3 : t ≠ "result" := fun h => h2 (Or.inl (by rw [h]))
              have h4 : t ≠ "error" := fun h => h2 (Or.inr (by rw [h]))
              simp [assertString, h3, h4]
          | jid j => simp [assertString]
          | int i => simp [assertString]
          | bool b => simp [assertString]
    · simp [htag]
  unfold classify
  split
  rename_i resType ok heq
  have hres : resType = (assertString (mapGet res.Attrs "type")).1 := by rw [heq]
  subst hres
  rw [if_pos hcond]

theorem receiveResponse_waitResponse (cli : Client) (reqID : String) (data : Node)
    (htag : data.Tag = "iq") (hid : mapGet data.Attrs "id" = some (.str reqID)) :
    receiveResponse (waitResponse cli reqID).1 data = .ok (delivered cli reqID data, true) := by
  rw [receiveResponse_present (waitResponse cli reqID).1 data reqID cli.chans.length
    ⟨1, [], false⟩ htag hid (by simp [waitResponse_eq, mapGet_mapSet_self])
    (by simp [waitResponse_eq]) rfl (by simp)]
  simp [waitResponse_eq, delivered, mapDelete_mapSet, List.set_append]

theorem delivered_slot (cli : Client) (reqID : String) (data : Node) :
    (delivered cli reqID data).chans[cli.chans.length]? = some ⟨1, [data], false⟩ := by
  simp [delivered]

theorem delivered_absent (cli : Client) (reqID : String) (data : Node) :
    mapGet (delivered cli reqID data).responseWaiters reqID = none := by
  simp [delivered, mapGet_mapDelete_self]

theorem chanRecv_delivered (cli : Client) (reqID : String) (data : Node) :
    chanRecv (delivered cli reqID data).chans cli.chans.length =
      some (cli.chans ++ [⟨1, [], false⟩], some data) := by
  simp [delivered, chanRecv, List.set_append]

/-! ## Decimal rendering is injective -/

theorem digitValue_digitChar (d : Nat) (h : d < 10) : digitValue (Nat.digitChar d) = d := by
  interval_cases d <;> rfl

theorem toDigitsCore_acc (fuel : Nat) : ∀ (n : Nat) (ds : List Char),
    Nat.toDigitsCore 10 fuel n ds = Nat.toDigitsCore 10 fuel n [] ++ ds := by
  induction fuel with
  | zero => intro n ds; simp [Nat.toDigitsCore]
  | succ fuel ih =>
      intro n ds
      simp only [Nat.toDigitsCore]
      split
      · simp
      · rw [ih (n / 10) (Nat.digitChar (n % 10) :: ds), ih (n / 10) [Nat.digitChar (n % 10)]]
        simp

theorem decodeDigits_toDigitsCore (fuel : Nat) : ∀ n : Nat, n < fuel →
    decodeDigits (Nat.toDigitsCore 10 fuel n []) = n := by
  induction fuel with
  | zero => intro n h; omega
  | succ fuel ih =>
      intro n h
      simp only [Nat.toDigitsCore]
      split
      · rename_i h0
        have hlt : n % 10 < 10 := Nat.mod_lt _ (by decide)
        simp only [decodeDigits, List.foldl, digitValue_digitChar _ hlt]
        omega
      · rename_i h0
        have hlt : n % 10 < 10 := Nat.mod_lt _ (by decide)
        have hrec := ih (n / 10) (by omega)
        rw [toDigitsCore_acc]
        simp only [decodeDigits] at hrec
        simp only [decodeDigits, List.foldl_append, List.foldl, hrec,
          digitValue_digitChar _ hlt]
        omega

theorem formatUint_injective (a b : Nat) (h : formatUint a = formatUint b) : a = b := by
  simp only [formatUint, Nat.repr, Nat.toDigits, List.asString] at h
  have h := congrArg String.data h
  simp only at h
  have ha := decodeDigits_toDigitsCore (a + 1) a (by omega)
  have hb := decodeDigits_toDigitsCore (b + 1) b (by omega)
  rw [h] at ha
  omega

theorem append_left_cancel (p a b : String) (h : p ++ a = p ++ b) : a = b := by
  have h2 := congrArg String.data h
  simp only [String.data_append] at h2
  exact String.ext (List.append_cancel_left h2)

theorem generateMany_ids (n : Nat) : ∀ cli : Client,
    (generateMany n cli).2 =
      (List.range n).map
        (fun i => cli.uniqueID ++ formatUint ((cli.idCounter + 1 + i) % 2 ^ 64)) := by
  induction n with
  | zero => intro cli; rfl
  | succ n ih =>
      intro cli
      simp only [generateMany, ih, generateRequestID, List.range_succ_eq_map, List.map_cons,
        List.map_map]
      refine congrArg₂ List.cons (by simp) (List.map_congr_left ?_)
      intro i _
      simp only [Function.comp]
      congr 2
      omega

/-! ## The branches of `sendIQ` that return no node -/

/-- When the dispatch succeeds, nothing is delivered and the timer case fires,
`sendIQ` returns `(nil, ErrIQTimedOut)` and the client is the one the dispatch
left: the waiter is still registered under the id of the query. -/
theorem sendIQ_timeAfter (cli : Client) (sendNode : Node → Option Error)
    (xmlString : Node → String) (query : infoQuery) (elapsed : Int)
    (hsend : sendNode (iqNode (assignID cli query).2) = none)
    (hwait : effectiveTimeout query ≤ elapsed) :
    sendIQ cli sendNode xmlString query [] elapsed .timeAfter =
      .ok ((waitResponse (assignID cli query).1 (assignID cli query).2.ID).1, none,
        some .ErrIQTimedOut) ∧
    mapGet (waitResponse (assignID cli query).1 (assignID cli query).2.ID).1.responseWaiters
      (assignID cli query).2.ID = some (assignID cli query).1.chans.length := by
  constructor
  · simp only [sendIQ, sendIQAsync_ok cli sendNode query hsend, deliverAll, if_pos hwait]
  · simp [waitResponse_eq, mapGet_mapSet_self]

/-- When the dispatch succeeds, nothing is delivered and the context is done
with error `e`, `sendIQ` returns `(nil, e)` and the client is the one the
dispatch left: the waiter is still registered under the id of the query. -/
theorem sendIQ_ctxDone (cli : Client) (sendNode : Node → Option Error)
    (xmlString : Node → String) (query : infoQuery) (elapsed : Int) (e : Error)
    (hsend : sendNode (iqNode (assignID cli query).2) = none)
    (hdone : (effectiveContext query).err = some e) :
    sendIQ cli sendNode xmlString query [] elapsed .ctxDone =
      .ok ((waitResponse (assignID cli query).1 (assignID cli query).2.ID).1, none, some e) ∧
    mapGet (waitResponse (assignID cli query).1 (assignID cli query).2.ID).1.responseWaiters
      (assignID cli query).2.ID = some (assignID cli query).1.chans.length := by
  constructor
  · simp only [sendIQ, sendIQAsync_ok cli sendNode query hsend, deliverAll, hdone]
  · simp [waitResponse_eq, mapGet_mapSet_self]

/-! ## The claims -/

/-- C1. Response classification in `sendIQ`: when the dispatch succeeded and
the receive case of the select takes a node `res` from the waiter slot,
`sendIQ` returns that same node, with no error when the tag is "iq" and the
type attribute is the string "result", with an error wrapping `ErrIQError`
when the tag is "iq" and the type attribute is the string "error", and with
an error wrapping `ErrIQUnexpectedResponse` in every other case, a missing
or non-string type attribute included. -/
theorem sendIQ_classifies_response (cli cli1 cli2 : Client) (sendNode : Node → Option Error)
    (xmlString : Node → String) (query : infoQuery) (inbound : List Node) (elapsed : Int)
    (ch : Nat) (heap : List Chan) (res : Node)
    (hdispatch : sendIQAsync cli sendNode query = .ok (cli1, some ch, none))
    (hinbound : deliverAll cli1 inbound = .ok cli2)
    (hrecv : chanRecv cli2.chans ch = some (heap, some res)) :
    ∃ err : Option Error,
      sendIQ cli sendNode xmlString query inbound elapsed .recv =
        .ok ({ cli2 with chans := heap }, some res, err) ∧
      (res.Tag = "iq" → mapGet res.Attrs "type" = some (.str "result") → err = none) ∧
      (res.Tag = "iq" → mapGet res.Attrs "type" = some (.str "error") →
        ∃ e, err = some e ∧ e.Is .ErrIQError = true) ∧
      (¬ (res.Tag = "iq" ∧ (mapGet res.Attrs "type" = some (.str "result") ∨
          mapGet res.Attrs "type" = some (.str "error"))) →
        ∃ e, err = some e ∧ e.Is .ErrIQUnexpectedResponse = true) := by
  refine ⟨(classify xmlString res).2, ?_, ?_, ?_, ?_⟩
  · simp [sendIQ, hdispatch, hinbound, hrecv, classify_fst]
  · intro htag hty
    rw [classify_result xmlString res htag hty]
  · intro htag hty
    rw [classify_error xmlString res htag hty]
    exact ⟨_, rfl, by simp [Error.Is]⟩
  · intro hne
    rw [classify_unexpected xmlString res hne]
    exact ⟨_, rfl, by simp [Error.Is]⟩

theorem sendIQ_classifies_response_witness :
    sendIQAsync demoClient sendAccept demoQuery = .ok (demoRegistered, some 1, none) ∧
    deliverAll demoRegistered [demoResponse "result"] = .ok demoDelivered ∧
    sendIQ demoClient sendAccept showTag demoQuery [demoResponse "result"] 0 .recv =
      .ok ({ demoDelivered with chans := [⟨1, [], false⟩, ⟨1, [], false⟩] },
        some (demoResponse "result"), none) := by
  obtain ⟨err, hret, hres, _, _⟩ :=
    sendIQ_classifies_response demoClient demoRegistered demoDelivered sendAccept showTag
      demoQuery [demoResponse "result"] 0 1 [⟨1, [], false⟩, ⟨1, [], false⟩]
      (demoResponse "result") (by decide) (by decide) (by decide)
  have herr : err = none := hres (by decide) (by decide)
  subst herr
  exact ⟨by decide, by decide, hret⟩

/-- C2. End-to-end round trip: for every registry state and every query whose
id (explicit or generated) is not registered, if the transport accepts the
request and `receiveResponse` is then called with a node of tag "iq" that
carries the id of the query as its string id attribute and the type "result",
then `receiveResponse` returns true, the slot `sendIQAsync` returned holds
exactly that node, and `sendIQ` returns that node with a nil error. -/
theorem sendIQ_round_trip (cli : Client) (sendNode : Node → Option Error)
    (xmlString : Node → String) (query : infoQuery) (resp : Node) (elapsed : Int)
    (hfresh : mapGet cli.responseWaiters (assignID cli query).2.ID = none)
    (hsend : sendNode (iqNode (assignID cli query).2) = none)
    (htag : resp.Tag = "iq")
    (hid : mapGet resp.Attrs "id" = some (.str (assignID cli query).2.ID))
    (hty : mapGet resp.Attrs "type" = some (.str "result")) :
    ∃ (cli1 : Client) (ch : Nat) (cli2 cli3 : Client),
      sendIQAsync cli sendNode query = .ok (cli1, some ch, none) ∧
      receiveResponse cli1 resp = .ok (cli2, true) ∧
      cli2.chans[ch]? = some ⟨1, [resp], false⟩ ∧
      sendIQ cli sendNode xmlString query [resp] elapsed .recv =
        .ok (cli3, some resp, none) := by
  have _ := hfresh
  have hrecv := receiveResponse_waitResponse (assignID cli query).1 (assignID cli query).2.ID
    resp htag hid
  refine ⟨_, _, _,
    { delivered (assignID cli query).1 (assignID cli query).2.ID resp with
      chans := (assignID cli query).1.chans ++ [⟨1, [], false⟩] },
    sendIQAsync_ok cli sendNode query hsend, hrecv, delivered_slot _ _ _, ?_⟩
  simp only [sendIQ, sendIQAsync_ok cli sendNode query hsend, deliverAll, hrecv]
  rw [Option.some_bind, chanRecv_delivered]
  simp only [classify_result xmlString resp htag hty]

theorem sendIQ_round_trip_witness :
    ∃ (cli1 : Client) (ch : Nat) (cli2 cli3 : Client),
      sendIQAsync demoClient sendAccept demoQuery = .ok (cli1, some ch, none) ∧
      receiveResponse cli1 (demoResponse "result") = .ok (cli2, true) ∧
      cli2.chans[ch]? = some ⟨1, [demoResponse "result"], false⟩ ∧
      sendIQ demoClient sendAccept showTag demoQuery [demoResponse "result"] 0 .recv =
        .ok (cli3, some (demoResponse "result"), none) :=
  sendIQ_round_trip demoClient sendAccept showTag demoQuery (demoResponse "result") 0
    (by decide) (by decide) (by decide) (by decide) (by decide)

/-- C3. Timeout branch of `sendIQ` at a concrete call: the transport accepts
`demoQuery` (id "q-1", timeout 10 ms), no response is delivered, the context
is never done and the timer case fires after 10 ms. `sendIQ` returns
`(nil, ErrIQTimedOut)`, and the registry afterward still maps "q-1" to the
slot registered by the dispatch. -/
theorem sendIQ_timeout_leaves_waiter :
    sendIQ demoClient sendAccept showTag demoQuery [] 10000000 .timeAfter =
      .ok (demoRegistered, none, some .ErrIQTimedOut) ∧
    mapGet demoRegistered.responseWaiters "q-1" = some 1 := by
  decide

/-- C4. Context-done branch of `sendIQ` at a concrete call: the transport
accepts `demoQuery` with a context that is canceled before any response and
before the timeout. `sendIQ` returns `(nil, ctx.Err())`, and the registry
afterward still maps "q-1" to the slot registered by the dispatch. -/
theorem sendIQ_cancel_leaves_waiter :
    sendIQ demoClient sendAccept showTag { demoQuery with Context := some canceledContext }
        [] 0 .ctxDone =
      .ok (demoRegistered, none, some (.other "context canceled")) ∧
    mapGet demoRegistered.responseWaiters "q-1" = some 1 := by
  decide

/-- C5. Send-failure rollback: for every registry state and every query, if
the transport returns an error `e` then `sendIQAsync` returns `(nil, e)`, the
registry afterward has no entry for the id of the query (explicit or
generated), and `receiveResponse` on any node carrying that id then returns
false and changes nothing. -/
theorem sendIQAsync_send_failure_rollback (cli : Client) (sendNode : Node → Option Error)
    (query : infoQuery) (e : Error)
    (hsend : sendNode (iqNode (assignID cli query).2) = some e) :
    ∃ cli1 : Client,
      sendIQAsync cli sendNode query = .ok (cli1, none, some e) ∧
      mapGet cli1.responseWaiters (assignID cli query).2.ID = none ∧
      ∀ data : Node, mapGet data.Attrs "id" = some (.str (assignID cli query).2.ID) →
        receiveResponse cli1 data = .ok (cli1, false) := by
  have habs : mapGet (rolledBack (assignID cli query).1 (assignID cli query).2.ID).responseWaiters
      (assignID cli query).2.ID = none := by
    simp [rolledBack, mapGet_mapDelete_self]
  exact ⟨_, sendIQAsync_fail cli sendNode query e hsend, habs,
    fun data hid => receiveResponse_absent _ data _ hid habs⟩

theorem sendIQAsync_send_failure_rollback_witness :
    ∃ cli1 : Client,
      sendIQAsync demoClient sendRefuse demoQuery =
        .ok (cli1, none, some (.other "websocket not connected")) ∧
      mapGet cli1.responseWaiters "q-1" = none ∧
      ∀ data : Node, mapGet data.Attrs "id" = some (.str "q-1") →
        receiveResponse cli1 data = .ok (cli1, false) :=
  sendIQAsync_send_failure_rollback demoClient sendRefuse demoQuery
    (.other "websocket not connected") (by decide)

/-- C6. Register then deliver resolves exactly once: for every registry state
and id, after `waitResponse id` the first `receiveResponse` with an "iq" node
carrying that id returns true, removes the entry and leaves exactly that node
in the slot; a second `receiveResponse` for the same id, with any node,
returns false and leaves the whole client, registry and slots, as it was. -/
theorem register_deliver_exactly_once (cli : Client) (id : String) (data data2 : Node)
    (htag : data.Tag = "iq")
    (hid : mapGet data.Attrs "id" = some (.str id))
    (hid2 : mapGet data2.Attrs "id" = some (.str id)) :
    ∃ cli2 : Client,
      receiveResponse (waitResponse cli id).1 data = .ok (cli2, true) ∧
      mapGet cli2.responseWaiters id = none ∧
      cli2.chans[(waitResponse cli id).2]? = some ⟨1, [data], false⟩ ∧
      receiveResponse cli2 data2 = .ok (cli2, false) :=
  ⟨delivered cli id data, receiveResponse_waitResponse cli id data htag hid,
    delivered_absent cli id data, delivered_slot cli id data,
    receiveResponse_absent _ data2 id hid2 (delivered_absent cli id data)⟩

theorem register_deliver_exactly_once_witness :
    ∃ cli2 : Client,
      receiveResponse (waitResponse demoClient "q-1").1 (demoResponse "result") =
        .ok (cli2, true) ∧
      mapGet cli2.responseWaiters "q-1" = none ∧
      cli2.chans[(waitResponse demoClient "q-1").2]? =
        some ⟨1, [demoResponse "result"], false⟩ ∧
      receiveResponse cli2 (demoResponse "error") = .ok (cli2, false) :=
  register_deliver_exactly_once demoClient "q-1" (demoResponse "result")
    (demoResponse "error") (by decide) (by decide) (by decide)

/-- C7. Delivery to an unregistered id is a no-op: for every registry state
and every node with tag "iq" whose string id attribute is not a key of the
registry, `receiveResponse` returns false and the client, its registry and
every slot, is unchanged. -/
theorem receiveResponse_unregistered_noop (cli : Client) (data : Node) (id : String)
    (htag : data.Tag = "iq")
    (hid : mapGet data.Attrs "id" = some (.str id))
    (habs : mapGet cli.responseWaiters id = none) :
    receiveResponse cli data = .ok (cli, false) := by
  have _ := htag
  exact receiveResponse_absent cli data id hid habs

theorem receiveResponse_unregistered_noop_witness :
    receiveResponse demoClient (demoResponse "result") = .ok (demoClient, false) :=
  receiveResponse_unregistered_noop demoClient (demoResponse "result") "q-1"
    (by decide) (by decide) (by decide)

/-- C8. Register then cancel: for every registry state and id, after
`ch = waitResponse id` and `cancelResponse id ch` with no delivery in
between, the registry has no entry for the id, the slot `ch` is closed and
empty, so that a receive on it completes at once with no message, and
`receiveResponse` on any node carrying that id returns false. -/
theorem register_cancel (cli : Client) (id : String) :
    ∃ cli2 : Client,
      cancelResponse (waitResponse cli id).1 id (waitResponse cli id).2 = .ok cli2 ∧
      mapGet cli2.responseWaiters id = none ∧
      cli2.chans[(waitResponse cli id).2]? = some ⟨1, [], true⟩ ∧
      chanRecv cli2.chans (waitResponse cli id).2 = some (cli2.chans, none) ∧
      ∀ data : Node, mapGet data.Attrs "id" = some (.str id) →
        receiveResponse cli2 data = .ok (cli2, false) := by
  have habs : mapGet (rolledBack cli id).responseWaiters id = none := by
    simp [rolledBack, mapGet_mapDelete_self]
  refine ⟨rolledBack cli id, cancelResponse_waitResponse cli id, habs, ?_, ?_,
    fun data hid => receiveResponse_absent _ data id hid habs⟩
  · simp [rolledBack, waitResponse_eq]
  · simp [rolledBack, waitResponse_eq, chanRecv]

theorem register_cancel_witness :
    receiveResponse (rolledBack demoClient "q-1") (demoResponse "result") =
      .ok (rolledBack demoClient "q-1", false) := by
  obtain ⟨cli2, hcancel, _, _, _, hrecv⟩ := register_cancel demoClient "q-1"
  have hcli : cli2 = rolledBack demoClient "q-1" := by
    have h := cancelResponse_waitResponse demoClient "q-1"
    rw [hcancel] at h
    exact Except.ok.inj h
  subst hcli
  exact hrecv (demoResponse "result") (by decide)

/-- C9. Inbound filter: for every client and every node whose tag is not "iq"
or whose "id" attribute is missing or not a string, `receiveResponse` returns
false and leaves the client, its registry and every slot, unchanged. -/
theorem receiveResponse_filter (cli : Client) (data : Node)
    (hbad : data.Tag ≠ "iq" ∨ ∀ s : String, mapGet data.Attrs "id" ≠ some (.str s)) :
    receiveResponse cli data = .ok (cli, false) := by
  rcases hbad with htag | hid
  · have hcond : ∀ ok : Bool, (!ok || data.Tag != "iq") = true := by
      intro ok
      simp [htag]
    unfold receiveResponse
    split
    rw [if_pos (hcond _)]
  · have hok : assertString (mapGet data.Attrs "id") = ("", false) := by
      cases hv : mapGet data.Attrs "id" with
      | none => rfl
      | some v =>
          cases v with
          | str t => exact absurd hv (hid t)
          | jid j => rfl
          | int i => rfl
          | bool b => rfl
    simp [receiveResponse, hok]

theorem receiveResponse_filter_witness :
    receiveResponse demoRegistered
        { Tag := "message", Attrs := [("id", .str "q-1")], Content := .null } =
      .ok (demoRegistered, false) :=
  receiveResponse_filter demoRegistered _ (Or.inl (by decide))

/-- C10. Identifier uniqueness: for every session prefix and every initial
counter value, `n` successive calls of `generateRequestID` on the same client
with `n ≤ 2 ^ 64` return `n` pairwise distinct identifiers. -/
theorem generateRequestID_pairwise_distinct (cli : Client) (n : Nat) (hn : n ≤ 2 ^ 64) :
    (generateMany n cli).2.length = n ∧
    (generateMany n cli).2.Pairwise (fun a b => a ≠ b) := by
  rw [generateMany_ids]
  refine ⟨by simp, ?_⟩
  have hnd : ((List.range n).map
      (fun i => cli.uniqueID ++ formatUint ((cli.idCounter + 1 + i) % 2 ^ 64))).Nodup := by
    refine List.Nodup.map_on ?_ (List.nodup_range n)
    intro i hi j hj hij
    have h1 := formatUint_injective _ _ (append_left_cancel _ _ _ hij)
    have hi2 : i < n := List.mem_range.mp hi
    have hj2 : j < n := List.mem_range.mp hj
    omega
  exact hnd

theorem generateRequestID_pairwise_distinct_witness :
    (generateMany 3 demoClient).2.length = 3 ∧
    (generateMany 3 demoClient).2.Pairwise (fun a b => a ≠ b) :=
  generateRequestID_pairwise_distinct demoClient 3 (by decide)

/-! ## More lemmas on maps -/

theorem mapDelete_cons {β : Type} (k : String) (v : β) (rest : List (String × β))
    (key : String) :
    mapDelete ((k, v) :: rest) key =
      if k = key then mapDelete rest key else (k, v) :: mapDelete rest key := by
  by_cases hk : k = key <;> simp [mapDelete, List.filter_cons, hk]

theorem mapDelete_of_absent {β : Type} (m : List (String × β)) (key : String)
    (h : mapGet m key = none) : mapDelete m key = m := by
  induction m with
  | nil => rfl
  | cons e rest ih =>
      obtain ⟨k, v⟩ := e
      by_cases hk : k = key
      · simp [mapGet, hk] at h
      · simp only [mapGet, hk, if_false] at h
        rw [mapDelete_cons, if_neg hk, ih h]

theorem mapGet_mapDelete_ne {β : Type} (m : List (String × β)) (key k : String)
    (h : k ≠ key) : mapGet (mapDelete m key) k = mapGet m k := by
  induction m with
  | nil => rfl
  | cons e rest ih =>
      obtain ⟨k1, v⟩ := e
      by_cases hk : k1 = key
      · have hne : ¬ k1 = k := fun h2 => h (h2 ▸ hk)
        rw [mapDelete_cons, if_pos hk, ih]
        simp only [mapGet, if_neg hne]
      · rw [mapDelete_cons, if_neg hk]
        simp only [mapGet, ih]

theorem mapGet_mapSet_ne {β : Type} (m : List (String × β)) (key k : String) (v : β)
    (h : k ≠ key) : mapGet (mapSet m key v) k = mapGet m k := by
  simp [mapSet, mapGet, Ne.symm h, mapGet_mapDelete_ne m key k h]

theorem mapGet_mapDelete_some {β : Type} (m : List (String × β)) (key k : String) (v : β)
    (h : mapGet (mapDelete m key) k = some v) : k ≠ key ∧ mapGet m k = some v := by
  by_cases hk : k = key
  · rw [hk, mapGet_mapDelete_self] at h
    exact absurd h (by simp)
  · exact ⟨hk, by rw [← mapGet_mapDelete_ne m key k hk]; exact h⟩

/-- On an id that is not registered, `cancelResponse` on an open slot succeeds,
keeps the registry and closes the slot with its buffer intact. -/
theorem cancelResponse_absent (cli : Client) (id : String) (ch : Nat) (c : Chan)
    (habs : mapGet cli.responseWaiters id = none)
    (hch : cli.chans[ch]? = some c) (hopen : c.closed = false) :
    cancelResponse cli id ch =
      .ok { cli with chans := cli.chans.set ch { c with closed := true } } := by
  simp [cancelResponse, closeChan, hch, hopen, mapDelete_of_absent _ _ habs]

/-- C11. Cancel when the entry is already removed, at a concrete call: in
`demoDelivered` the id "q-1" is absent because `receiveResponse` delivered to
it, and slot 1 is open and holds the delivered node. `cancelResponse "q-1" 1`
does not look the id up: it is not the case that it succeeds and leaves both
the registry and the slot unchanged, because it closes the slot. -/
theorem cancelResponse_absent_closes_slot :
    mapGet demoDelivered.responseWaiters "q-1" = none ∧
    ¬ ∃ cli1 : Client,
        cancelResponse demoDelivered "q-1" 1 = .ok cli1 ∧
        cli1.responseWaiters = demoDelivered.responseWaiters ∧
        cli1.chans[1]? = demoDelivered.chans[1]? := by
  refine ⟨by decide, ?_⟩
  rintro ⟨cli1, hok, _, hslot⟩
  have hev : cancelResponse demoDelivered "q-1" 1 =
      .ok { demoDelivered with
            chans := [⟨1, [], false⟩, ⟨1, [demoResponse "result"], true⟩] } := by decide
  rw [hev] at hok
  have hcli := Except.ok.inj hok
  subst hcli
  revert hslot
  decide

/-- What `cancelResponse` does on an id that is not registered and an open
slot: it completes, the registry and the buffer of the slot are as before,
the slot is closed, and every other slot is unchanged. -/
theorem cancelResponse_absent_effect (cli : Client) (id : String) (ch : Nat) (c : Chan)
    (habs : mapGet cli.responseWaiters id = none)
    (hch : cli.chans[ch]? = some c) (hopen : c.closed = false) :
    ∃ cli1 : Client,
      cancelResponse cli id ch = .ok cli1 ∧
      cli1.responseWaiters = cli.responseWaiters ∧
      cli1.chans[ch]? = some ⟨c.cap, c.buf, true⟩ ∧
      ∀ i : Nat, i ≠ ch → cli1.chans[i]? = cli.chans[i]? := by
  have hlt : ch < cli.chans.length := by
    rcases Nat.lt_or_ge ch cli.chans.length with h | h
    · exact h
    · rw [List.getElem?_eq_none h] at hch
      exact absurd hch (by simp)
  refine ⟨_, cancelResponse_absent cli id ch c habs hch hopen, rfl, ?_, ?_⟩
  · simp [List.getElem?_set, hlt]
  · intro i hi
    simp [List.getElem?_set, Ne.symm hi]

/-! ## The dispatcher, step by step -/

theorem length_eq_zero_iff_empty (s : String) : s.length = 0 ↔ s = "" := by
  constructor
  · intro h
    apply String.ext
    have h2 : s.data.length = 0 := h
    exact List.length_eq_zero.mp h2
  · intro h
    rw [h]
    rfl

theorem assignID_ID (cli : Client) (query : infoQuery) :
    (assignID cli query).2.ID =
      if query.ID = "" then (generateRequestID cli).2 else query.ID := by
  unfold assignID
  by_cases h : query.ID.length = 0
  · rw [if_pos h, if_pos ((length_eq_zero_iff_empty _).mp h)]
  · rw [if_neg h, if_neg (fun h2 => h ((length_eq_zero_iff_empty _).mpr h2))]

theorem assignID_fields (cli : Client) (query : infoQuery) :
    (assignID cli query).2.Namespace = query.Namespace ∧
    (assignID cli query).2.Typ = query.Typ ∧
    (assignID cli query).2.To = query.To ∧
    (assignID cli query).2.Content = query.Content := by
  unfold assignID
  split <;> simp

theorem assignID_client (cli : Client) (query : infoQuery) :
    (assignID cli query).1.responseWaiters = cli.responseWaiters ∧
    (assignID cli query).1.chans = cli.chans ∧
    (assignID cli query).1.uniqueID = cli.uniqueID ∧
    (assignID cli query).1.idCounter =
      if query.ID = "" then (cli.idCounter + 1) % 2 ^ 64 else cli.idCounter := by
  unfold assignID
  by_cases h : query.ID.length = 0
  · rw [if_pos h, if_pos ((length_eq_zero_iff_empty _).mp h)]
    simp [generateRequestID]
  · rw [if_neg h, if_neg (fun h2 => h ((length_eq_zero_iff_empty _).mpr h2))]
    simp

theorem sendIQAsync_transport (cli : Client) (sendNode : Node → Option Error)
    (query : infoQuery) :
    sendIQAsync cli sendNode query =
      sendIQAsync cli (fun _ => sendNode (iqNode (assignID cli query).2)) query := by
  simp only [sendIQAsync]

/-- C12. Outbound envelope: for every query, with `rid` the request id
(`query.ID` when it is non-empty, otherwise the value `generateRequestID`
returns) and `n` the node with tag "iq", the content of the query and exactly
the four attributes "id", "xmlns", "type", "to" holding `rid`, the namespace,
the type and the target, `sendIQAsync` consults the transport at `n` and at
no other node; when the transport accepts `n` the waiter returned is the one
registered under `rid`, and when it refuses, the registration made under
`rid` is the one that is canceled. -/
theorem sendIQAsync_outbound_envelope (cli : Client) (query : infoQuery) (rid : String)
    (n : Node)
    (hrid : rid = if query.ID = "" then (generateRequestID cli).2 else query.ID)
    (hn : n = { Tag := "iq"
                Attrs := [("id", .str rid), ("xmlns", .str query.Namespace),
                          ("type", .str query.Typ), ("to", .jid query.To)]
                Content := query.Content }) :
    (∀ sendNode : Node → Option Error,
      sendIQAsync cli sendNode query = sendIQAsync cli (fun _ => sendNode n) query) ∧
    (∀ sendNode : Node → Option Error, sendNode n = none →
      ∃ (cli1 : Client) (ch : Nat),
        sendIQAsync cli sendNode query = .ok (cli1, some ch, none) ∧
        waitResponse (assignID cli query).1 rid = (cli1, ch) ∧
        mapGet cli1.responseWaiters rid = some ch) ∧
    (∀ (sendNode : Node → Option Error) (e : Error), sendNode n = some e →
      ∃ cli1 : Client,
        sendIQAsync cli sendNode query = .ok (cli1, none, some e) ∧
        cancelResponse (waitResponse (assignID cli query).1 rid).1 rid
          (waitResponse (assignID cli query).1 rid).2 = .ok cli1) := by
  have hid : (assignID cli query).2.ID = rid := by rw [assignID_ID, hrid]
  have hnode : iqNode (assignID cli query).2 = n := by
    obtain ⟨h1, h2, h3, h4⟩ := assignID_fields cli query
    rw [hn]
    simp only [iqNode, hid, h1, h2, h3, h4]
  refine ⟨?_, ?_, ?_⟩
  · intro sendNode
    rw [sendIQAsync_transport, hnode]
  · intro sendNode hsend
    rw [← hnode] at hsend
    refine ⟨_, _, sendIQAsync_ok cli sendNode query hsend, ?_, ?_⟩
    · rw [hid]
      rfl
    · rw [hid]
      simp [waitResponse_eq, mapGet_mapSet_self]
  · intro sendNode e hsend
    rw [← hnode] at hsend
    refine ⟨_, sendIQAsync_fail cli sendNode query e hsend, ?_⟩
    rw [← hid]
    exact cancelResponse_waitResponse _ _

theorem sendIQAsync_outbound_envelope_witness :
    ∃ (cli1 : Client) (ch : Nat),
      sendIQAsync demoClient sendAccept { demoQuery with ID := "" } =
        .ok (cli1, some ch, none) ∧
      mapGet cli1.responseWaiters "3EB0.42" = some ch := by
  obtain ⟨_, hok, _⟩ := sendIQAsync_outbound_envelope demoClient { demoQuery with ID := "" }
    "3EB0.42"
    { Tag := "iq"
      Attrs := [("id", .str "3EB0.42"), ("xmlns", .str "test"), ("type", .str "get"),
                ("to", .jid ⟨"peer", "example"⟩)]
      Content := .null }
    (by decide) (by decide)
  obtain ⟨cli1, ch, h1, _, h3⟩ := hok sendAccept rfl
  exact ⟨cli1, ch, h1, h3⟩

theorem getElem?_append_new_ne (heap : List Chan) (c : Chan) (i : Nat)
    (hi : i ≠ heap.length) : (heap ++ [c])[i]? = heap[i]? := by
  rcases Nat.lt_or_ge i heap.length with h | h
  · exact List.getElem?_append_left h
  · have h2 : heap.length < i := Nat.lt_of_le_of_ne h (Ne.symm hi)
    rw [List.getElem?_eq_none h, List.getElem?_eq_none]
    simp only [List.length_append, List.length_singleton]
    omega

/-- C13. Successful dispatch creates exactly one entry: for every registry
state and every query whose id (explicit or generated) is not registered, if
the transport accepts the request then `sendIQAsync` returns `(slot, nil)`,
the registry afterward is the registry before plus the single entry from the
id to that slot, every other id reads as before, the slot is a new cell that
is open and empty with capacity 1, and every other cell is unchanged. -/
theorem sendIQAsync_success_one_entry (cli : Client) (sendNode : Node → Option Error)
    (query : infoQuery)
    (hfresh : mapGet cli.responseWaiters (assignID cli query).2.ID = none)
    (hsend : sendNode (iqNode (assignID cli query).2) = none) :
    ∃ (cli1 : Client) (ch : Nat),
      sendIQAsync cli sendNode query = .ok (cli1, some ch, none) ∧
      cli1.responseWaiters = ((assignID cli query).2.ID, ch) :: cli.responseWaiters ∧
      mapGet cli1.responseWaiters (assignID cli query).2.ID = some ch ∧
      (∀ k : String, k ≠ (assignID cli query).2.ID →
        mapGet cli1.responseWaiters k = mapGet cli.responseWaiters k) ∧
      cli.chans[ch]? = none ∧
      cli1.chans[ch]? = some ⟨1, [], false⟩ ∧
      (∀ i : Nat, i ≠ ch → cli1.chans[i]? = cli.chans[i]?) := by
  obtain ⟨hreg, hchans, _, _⟩ := assignID_client cli query
  refine ⟨_, _, sendIQAsync_ok cli sendNode query hsend, ?_, ?_, ?_, ?_, ?_, ?_⟩
  · simp only [waitResponse_eq, mapSet, hreg, hchans, mapDelete_of_absent _ _ hfresh]
  · simp [waitResponse_eq, mapGet_mapSet_self]
  · intro k hk
    simp only [waitResponse_eq, hreg]
    exact mapGet_mapSet_ne _ _ _ _ hk
  · rw [hchans]
    exact List.getElem?_eq_none (Nat.le_refl _)
  · simp [waitResponse_eq]
  · intro i hi
    rw [hchans] at hi
    simp only [waitResponse_eq, hchans]
    exact getElem?_append_new_ne _ _ _ hi

theorem sendIQAsync_success_one_entry_witness :
    ∃ (cli1 : Client) (ch : Nat),
      sendIQAsync demoClient sendAccept demoQuery = .ok (cli1, some ch, none) ∧
      cli1.responseWaiters = ("q-1", ch) :: demoClient.responseWaiters ∧
      mapGet cli1.responseWaiters "q-1" = some ch ∧
      (∀ k : String, k ≠ "q-1" →
        mapGet cli1.responseWaiters k = mapGet demoClient.responseWaiters k) ∧
      demoClient.chans[ch]? = none ∧
      cli1.chans[ch]? = some ⟨1, [], false⟩ ∧
      (∀ i : Nat, i ≠ ch → cli1.chans[i]? = demoClient.chans[i]?) :=
  sendIQAsync_success_one_entry demoClient sendAccept demoQuery (by decide) (by decide)

/-! ## What `receiveResponse` does, case by case -/

theorem lt_of_getElem?_eq_some {α : Type} (l : List α) (i : Nat) (a : α)
    (h : l[i]? = some a) : i < l.length := by
  rcases Nat.lt_or_ge i l.length with h1 | h1
  · exact h1
  · rw [List.getElem?_eq_none h1] at h
    exact absurd h (by simp)

/-- When `receiveResponse` returns false the client is unchanged. -/
theorem receiveResponse_false (cli cli1 : Client) (data : Node)
    (h : receiveResponse cli data = .ok (cli1, false)) : cli1 = cli := by
  unfold receiveResponse at h
  split at h
  split at h
  · exact (Prod.mk.inj (Except.ok.inj h)).1.symm
  · split at h
    · exact (Prod.mk.inj (Except.ok.inj h)).1.symm
    · dsimp only at h
      split at h
      · exact absurd h (by simp)
      · exact absurd (Prod.mk.inj (Except.ok.inj h)).2 (by simp)

/-- When `receiveResponse` returns true the node has tag "iq" and a string id
that was registered with an open slot with room, the entry is deleted and the
node is appended to the buffer of that slot. -/
theorem receiveResponse_true (cli cli1 : Client) (data : Node)
    (h : receiveResponse cli data = .ok (cli1, true)) :
    data.Tag = "iq" ∧
    ∃ (id : String) (ch : Nat) (c : Chan),
      mapGet data.Attrs "id" = some (.str id) ∧
      mapGet cli.responseWaiters id = some ch ∧
      cli.chans[ch]? = some c ∧ c.closed = false ∧ c.buf.length < c.cap ∧
      cli1 = { cli with
                responseWaiters := mapDelete cli.responseWaiters id
                chans := cli.chans.set ch { c with buf := c.buf ++ [data] } } := by
  cases hv : mapGet data.Attrs "id" with
  | none => simp [receiveResponse, hv, assertString] at h
  | some v =>
      cases v with
      | jid j => simp [receiveResponse, hv, assertString] at h
      | int i => simp [receiveResponse, hv, assertString] at h
      | bool b => simp [receiveResponse, hv, assertString] at h
      | str id =>
          by_cases htag : data.Tag = "iq"
          · refine ⟨htag, id, ?_⟩
            cases hreg : mapGet cli.responseWaiters id with
            | none => simp [receiveResponse, hv, assertString, htag, hreg] at h
            | some ch =>
                cases hch : cli.chans[ch]? with
                | none => simp [receiveResponse, hv, assertString, htag, hreg, chanSend, hch] at h
                | some c =>
                    by_cases hcl : c.closed = true
                    · simp [receiveResponse, hv, assertString, htag, hreg, chanSend, hch,
                        hcl] at h
                    · by_cases hroom : c.buf.length < c.cap
                      · have hcl2 : c.closed = false := by simpa using hcl
                        have h2 := receiveResponse_present cli data id ch c htag hv hreg hch
                          hcl2 hroom
                        rw [h2] at h
                        exact ⟨ch, c, rfl, rfl, hch, hcl2, hroom,
                          (Prod.mk.inj (Except.ok.inj h)).1.symm⟩
                      · simp [receiveResponse, hv, assertString, htag, hreg, chanSend, hch,
                          hcl, hroom] at h
          · simp [receiveResponse, hv, assertString, htag] at h

/-- When every registered slot is ready, `receiveResponse` neither panics nor
blocks. -/
theorem receiveResponse_ready (cli : Client) (data : Node) (hready : SlotsReady cli) :
    ∃ r : Client × Bool, receiveResponse cli data = .ok r := by
  cases hv : mapGet data.Attrs "id" with
  | none => exact ⟨(cli, false), by simp [receiveResponse, hv, assertString]⟩
  | some v =>
      cases v with
      | jid j => exact ⟨(cli, false), by simp [receiveResponse, hv, assertString]⟩
      | int i => exact ⟨(cli, false), by simp [receiveResponse, hv, assertString]⟩
      | bool b => exact ⟨(cli, false), by simp [receiveResponse, hv, assertString]⟩
      | str id =>
          cases hreg : mapGet cli.responseWaiters id with
          | none => exact ⟨(cli, false), receiveResponse_absent cli data id hv hreg⟩
          | some ch =>
              by_cases htag : data.Tag = "iq"
              · exact ⟨_, receiveResponse_present cli data id ch ⟨1, [], false⟩ htag hv hreg
                  (hready id ch hreg) rfl (by simp)⟩
              · exact ⟨(cli, false), by simp [receiveResponse, hv, assertString, htag]⟩

/-! ## The invariant of schedules -/

theorem mapGet_mapSet_some {β : Type} (m : List (String × β)) (key k : String) (v w : β)
    (h : mapGet (mapSet m key v) k = some w) :
    (k = key ∧ w = v) ∨ (k ≠ key ∧ mapGet m k = some w) := by
  by_cases hk : k = key
  · left
    rw [hk, mapGet_mapSet_self] at h
    exact ⟨hk, (Option.some.inj h).symm⟩
  · right
    rw [mapGet_mapSet_ne m key k v hk] at h
    exact ⟨hk, h⟩

theorem getElem?_set_other (heap : List Chan) (ch i : Nat) (c : Chan) (h : i ≠ ch) :
    (heap.set ch c)[i]? = heap[i]? := by
  simp [List.getElem?_set, Ne.symm h]

theorem getElem?_set_same (heap : List Chan) (ch : Nat) (c d : Chan)
    (h : heap[ch]? = some d) : (heap.set ch c)[ch]? = some c := by
  simp [List.getElem?_set, lt_of_getElem?_eq_some heap ch d h]

theorem receiveResponse_split (cli : Client) (data : Node) :
    receiveResponse cli data =
      match receiveLocked cli data with
      | (cli1, none) => .ok (cli1, false)
      | (cli1, some waiter) => receiveSend cli1 waiter data := by
  unfold receiveResponse receiveLocked receiveSend
  split
  split
  · rfl
  · split <;> rfl

theorem receiveLocked_cases (cli : Client) (data : Node) :
    receiveLocked cli data = (cli, none) ∨
    ∃ (id : String) (waiter : Nat),
      data.Tag = "iq" ∧ mapGet data.Attrs "id" = some (.str id) ∧
      mapGet cli.responseWaiters id = some waiter ∧
      receiveLocked cli data =
        ({ cli with responseWaiters := mapDelete cli.responseWaiters id }, some waiter) := by
  cases hv : mapGet data.Attrs "id" with
  | none => exact Or.inl (by simp [receiveLocked, hv, assertString])
  | some v =>
      cases v with
      | jid j => exact Or.inl (by simp [receiveLocked, hv, assertString])
      | int i => exact Or.inl (by simp [receiveLocked, hv, assertString])
      | bool b => exact Or.inl (by simp [receiveLocked, hv, assertString])
      | str id =>
          by_cases htag : data.Tag = "iq"
          · cases hreg : mapGet cli.responseWaiters id with
            | none => exact Or.inl (by simp [receiveLocked, hv, assertString, htag, hreg])
            | some waiter =>
                exact Or.inr ⟨id, waiter, htag, rfl, hreg,
                  by simp [receiveLocked, hv, assertString, htag, hreg]⟩
          · exact Or.inl (by simp [receiveLocked, hv, assertString, htag])

theorem chanSend_ok (heap heap1 : List Chan) (ch : Nat) (data : Node)
    (h : chanSend heap ch data = .ok heap1) :
    ∃ c : Chan, heap[ch]? = some c ∧ c.closed = false ∧
      heap1 = heap.set ch { c with buf := c.buf ++ [data] } := by
  unfold chanSend at h
  split at h
  · exact absurd h (by simp)
  · rename_i c hc
    split at h
    · exact absurd h (by simp)
    · rename_i hcl
      split at h
      · exact ⟨c, hc, by simpa using hcl, (Except.ok.inj h).symm⟩
      · exact absurd h (by simp)

theorem sessionInv_wait (s : Session) (reqID : String) (hinv : SessionInv s) :
    SessionInv ⟨(waitResponse s.cli reqID).1,
      (reqID, (waitResponse s.cli reqID).2) :: s.inflight, s.sending⟩ := by
  have hold : ∀ (k : String) (ch : Nat), mapGet s.cli.responseWaiters k = some ch →
      ch < s.cli.chans.length := fun k ch h =>
    lt_of_getElem?_eq_some _ _ _ (hinv.ready k ch h)
  constructor
  · intro k ch h
    simp only [waitResponse_eq] at h ⊢
    rcases mapGet_mapSet_some _ _ _ _ _ h with ⟨_, hch⟩ | ⟨_, hget⟩
    · rw [hch]
      exact heap_getElem_new _ _
    · rw [List.getElem?_append_left (hold k ch hget)]
      exact hinv.ready k ch hget
  · intro k1 k2 ch h1 h2
    simp only [waitResponse_eq] at h1 h2
    rcases mapGet_mapSet_some _ _ _ _ _ h1 with ⟨hk1, hch1⟩ | ⟨_, hget1⟩
    · rcases mapGet_mapSet_some _ _ _ _ _ h2 with ⟨hk2, _⟩ | ⟨_, hget2⟩
      · rw [hk1, hk2]
      · have := hold k2 ch hget2
        omega
    · rcases mapGet_mapSet_some _ _ _ _ _ h2 with ⟨_, hch2⟩ | ⟨_, hget2⟩
      · have := hold k1 ch hget1
        omega
      · exact hinv.distinct k1 k2 ch hget1 hget2
  · intro p hp
    simp only [waitResponse_eq] at hp ⊢
    rcases List.mem_cons.mp hp with hnew | hmem
    · rw [hnew]
      exact ⟨_, heap_getElem_new _ _, rfl⟩
    · obtain ⟨c, hc, hopen⟩ := hinv.live p hmem
      refine ⟨c, ?_, hopen⟩
      rw [List.getElem?_append_left (lt_of_getElem?_eq_some _ _ _ hc)]
      exact hc
  · intro p hp k h
    simp only [waitResponse_eq] at hp h ⊢
    rcases List.mem_cons.mp hp with hnew | hmem
    · rw [hnew] at h ⊢
      rcases mapGet_mapSet_some _ _ _ _ _ h with ⟨hk, _⟩ | ⟨_, hget⟩
      · exact hk
      · have := hold k _ hget
        simp only at this
        omega
    · obtain ⟨c, hc, _⟩ := hinv.live p hmem
      have hlt := lt_of_getElem?_eq_some _ _ _ hc
      rcases mapGet_mapSet_some _ _ _ _ _ h with ⟨_, hch⟩ | ⟨_, hget⟩
      · omega
      · exact hinv.own p hmem k hget
  · intro p hp
    obtain ⟨hlt, hfree⟩ := hinv.parked p hp
    simp only [waitResponse_eq]
    refine ⟨by simp only [List.length_append, List.length_singleton]; omega, ?_⟩
    intro k h
    rcases mapGet_mapSet_some _ _ _ _ _ h with ⟨_, hch⟩ | ⟨_, hget⟩
    · omega
    · exact hfree k hget

theorem sessionInv_lookup (s : Session) (data : Node) (hinv : SessionInv s) :
    SessionInv ⟨(receiveLocked s.cli data).1, s.inflight,
      match (receiveLocked s.cli data).2 with
      | none => s.sending
      | some waiter => (waiter, data) :: s.sending⟩ := by
  rcases receiveLocked_cases s.cli data with hnone | ⟨id, w, _, _, hreg, hsome⟩
  · rw [hnone]
    exact hinv
  · rw [hsome]
    constructor
    · intro k ch h
      exact hinv.ready k ch (mapGet_mapDelete_some _ _ _ _ h).2
    · intro k1 k2 ch h1 h2
      exact hinv.distinct k1 k2 ch (mapGet_mapDelete_some _ _ _ _ h1).2
        (mapGet_mapDelete_some _ _ _ _ h2).2
    · intro p hp
      exact hinv.live p hp
    · intro p hp k h
      exact hinv.own p hp k (mapGet_mapDelete_some _ _ _ _ h).2
    · intro p hp
      rcases List.mem_cons.mp hp with hnew | hmem
      · rw [hnew]
        refine ⟨lt_of_getElem?_eq_some _ _ _ (hinv.ready id w hreg), ?_⟩
        intro k h
        obtain ⟨hk, hget⟩ := mapGet_mapDelete_some _ _ _ _ h
        exact hk (hinv.distinct k id w hget hreg)
      · obtain ⟨hlt, hfree⟩ := hinv.parked p hmem
        exact ⟨hlt, fun k h => hfree k (mapGet_mapDelete_some _ _ _ _ h).2⟩

theorem sessionInv_send (s : Session) (waiter : Nat) (data : Node) (r : Client × Bool)
    (hinv : SessionInv s) (hmem : (waiter, data) ∈ s.sending)
    (h : receiveSend s.cli waiter data = .ok r) :
    SessionInv ⟨r.1, s.inflight, s.sending.erase (waiter, data)⟩ := by
  unfold receiveSend at h
  split at h
  · exact absurd h (by simp)
  · rename_i heap hsend
    obtain ⟨c, hc, hopen, hheap⟩ := chanSend_ok _ _ _ _ hsend
    have hr : r.1 = { s.cli with chans := heap } := by rw [← Except.ok.inj h]
    rw [hr, hheap]
    have hfree := (hinv.parked _ hmem).2
    constructor
    · intro k ch h1
      have hne : ch ≠ waiter := fun heq => hfree k (heq ▸ h1)
      simp only
      rw [getElem?_set_other _ _ _ _ hne]
      exact hinv.ready k ch h1
    · exact hinv.distinct
    · intro p hp
      obtain ⟨c0, hc0, hopen0⟩ := hinv.live p hp
      by_cases hp2 : p.2 = waiter
      · refine ⟨{ c with buf := c.buf ++ [data] }, ?_, hopen⟩
        simp only
        rw [hp2]
        exact getElem?_set_same _ _ _ _ hc
      · refine ⟨c0, ?_, hopen0⟩
        simp only
        rw [getElem?_set_other _ _ _ _ hp2]
        exact hc0
    · exact hinv.own
    · intro p hp
      obtain ⟨hlt, hfree1⟩ := hinv.parked p (List.mem_of_mem_erase hp)
      exact ⟨by simpa using hlt, hfree1⟩

theorem sessionInv_cancel (s : Session) (reqID : String) (ch : Nat) (hinv : SessionInv s)
    (hmem : (reqID, ch) ∈ s.inflight) :
    ∃ cli1 : Client, cancelResponse s.cli reqID ch = .ok cli1 ∧
      SessionInv ⟨cli1, s.inflight.filter (fun p => decide (p.2 ≠ ch)), s.sending⟩ := by
  obtain ⟨c, hc, hopen⟩ := hinv.live _ hmem
  simp only at hc
  refine ⟨{ s.cli with
            chans := s.cli.chans.set ch { c with closed := true }
            responseWaiters := mapDelete s.cli.responseWaiters reqID }, ?_, ?_⟩
  · simp [cancelResponse, closeChan, hc, hopen]
  · constructor
    · intro k ch1 h1
      obtain ⟨hk, hget⟩ := mapGet_mapDelete_some _ _ _ _ h1
      have hne : ch1 ≠ ch := fun heq => hk (hinv.own _ hmem k (heq ▸ hget))
      simp only
      rw [getElem?_set_other _ _ _ _ hne]
      exact hinv.ready k ch1 hget
    · intro k1 k2 ch1 h1 h2
      exact hinv.distinct k1 k2 ch1 (mapGet_mapDelete_some _ _ _ _ h1).2
        (mapGet_mapDelete_some _ _ _ _ h2).2
    · intro p hp
      obtain ⟨hp1, hp2⟩ := List.mem_filter.mp hp
      have hne : p.2 ≠ ch := by simpa using hp2
      obtain ⟨c0, hc0, hopen0⟩ := hinv.live p hp1
      refine ⟨c0, ?_, hopen0⟩
      simp only
      rw [getElem?_set_other _ _ _ _ hne]
      exact hc0
    · intro p hp k h1
      exact hinv.own p (List.mem_filter.mp hp).1 k (mapGet_mapDelete_some _ _ _ _ h1).2
    · intro p hp
      obtain ⟨hlt, hfree⟩ := hinv.parked p hp
      exact ⟨by simpa using hlt, fun k h => hfree k (mapGet_mapDelete_some _ _ _ _ h).2⟩

theorem sessionInv_start (cli : Client) (h : cli.responseWaiters = []) :
    SessionInv ⟨cli, [], []⟩ := by
  constructor
  · intro k ch hget
    simp [h, mapGet] at hget
  · intro k1 k2 ch hget
    simp [h, mapGet] at hget
  · intro p hp
    simp at hp
  · intro p hp
    simp at hp
  · intro p hp
    simp at hp

/-- A step that completes keeps the invariant. -/
theorem applyStep_inv (s s1 : Session) (st : RegistryStep) (hinv : SessionInv s)
    (h : applyStep s st = some (.ok s1)) : SessionInv s1 := by
  cases st with
  | wait reqID =>
      have heq := Except.ok.inj (Option.some.inj h)
      rw [← heq]
      exact sessionInv_wait s reqID hinv
  | lookup data =>
      have hinv1 := sessionInv_lookup s data hinv
      simp only [applyStep] at h
      split at h
      · rename_i hnone
        rw [hnone] at hinv1
        have heq := Except.ok.inj (Option.some.inj h)
        rw [← heq]
        exact hinv1
      · rename_i w hsome
        rw [hsome] at hinv1
        have heq := Except.ok.inj (Option.some.inj h)
        rw [← heq]
        exact hinv1
  | send waiter data =>
      simp only [applyStep] at h
      split at h
      · rename_i hmem
        split at h
        · exact absurd (Option.some.inj h) (by simp)
        · rename_i r hr
          have heq := Except.ok.inj (Option.some.inj h)
          rw [← heq]
          exact sessionInv_send s waiter data r hinv hmem hr
      · exact absurd h (by simp)
  | cancel reqID ch =>
      simp only [applyStep] at h
      split at h
      · rename_i hmem
        obtain ⟨cli1, hok, hinv1⟩ := sessionInv_cancel s reqID ch hinv hmem
        rw [hok] at h
        have heq := Except.ok.inj (Option.some.inj h)
        rw [← heq]
        exact hinv1
      · exact absurd h (by simp)

/-- A schedule that completes keeps the invariant. -/
theorem runSteps_inv (steps : List RegistryStep) : ∀ s s1 : Session, SessionInv s →
    runSteps s steps = some (.ok s1) → SessionInv s1 := by
  induction steps with
  | nil =>
      intro s s1 hinv h
      have heq := Except.ok.inj (Option.some.inj h)
      rw [← heq]
      exact hinv
  | cons st rest ih =>
      intro s s1 hinv h
      simp only [runSteps] at h
      split at h
      · exact absurd h (by simp)
      · exact absurd (Option.some.inj h) (by simp)
      · rename_i s2 hs2
        exact ih s2 s1 (applyStep_inv s s2 st hinv hs2) h

/-- C14. Delivery never blocks or panics, at a concrete schedule from a client
with an empty registry. A dispatch registers "q-1" and gets slot 0. The read
path calls `receiveResponse` with a response for "q-1": it finds slot 0,
deletes the entry and unlocks. The send of the dispatch fails, so it calls
`cancelResponse "q-1" 0`, which closes slot 0. Up to here no step has failed
and the registry is empty. The read path then makes its send `waiter <- data`
to slot 0, and the send panics. -/
theorem delivery_panics_after_cancel :
    runSteps ⟨idleClient, [], []⟩ raceBeforeSend = some (.ok raceParked) ∧
    applyStep raceParked (.send 0 (demoResponse "result")) = some (.error .panicked) ∧
    runSteps ⟨idleClient, [], []⟩ raceSchedule = some (.error .panicked) := by
  decide

/-! ## Independence of pending requests -/

theorem pendingEntry_congr (cli cli1 : Client) (b : String)
    (hreg : mapGet cli1.responseWaiters b = mapGet cli.responseWaiters b)
    (hch : ∀ cb : Nat, mapGet cli.responseWaiters b = some cb →
      cli1.chans[cb]? = cli.chans[cb]?) :
    pendingEntry cli1 b = pendingEntry cli b := by
  unfold pendingEntry
  rw [hreg]
  cases hb : mapGet cli.responseWaiters b with
  | none => rfl
  | some cb => simp [hch cb hb]

/-- In every state a schedule reaches from an empty registry, the registered
slots are ready, distinct and allocated. -/
theorem runSteps_wellFormed (cli0 : Client) (h0 : cli0.responseWaiters = [])
    (steps : List RegistryStep) (s : Session)
    (hrun : runSteps ⟨cli0, [], []⟩ steps = some (.ok s)) :
    SlotsReady s.cli ∧ SlotsDistinct s.cli ∧ SlotsAllocated s.cli := by
  have hinv1 := runSteps_inv steps ⟨cli0, [], []⟩ s (sessionInv_start cli0 h0) hrun
  exact ⟨hinv1.ready, hinv1.distinct,
    fun k ch h => lt_of_getElem?_eq_some _ _ _ (hinv1.ready k ch h)⟩

/-- C15. Independence of pending requests: in every registry state in which
no two ids share a slot and every registered slot is a cell of the heap (as
in every state the program reaches), and for every two distinct ids `a` and
`b`, the entry of `b` (its presence, its slot, and the capacity, buffer and
open or closed state of that slot) is unchanged by a `receiveResponse` for
`a`, by a `cancelResponse` for `a` on an open slot that is not the slot of
`b`, and by a `sendIQAsync` for `a` whose send fails. The cancel and the
failed dispatch complete; the delivery completes when the registered slots
are ready. -/
theorem pending_requests_independent (cli : Client) (a b : String) (hab : a ≠ b)
    (hdistinct : SlotsDistinct cli) (halloc : SlotsAllocated cli) :
    (∀ data : Node, mapGet data.Attrs "id" = some (.str a) →
      (∀ (cli1 : Client) (r : Bool), receiveResponse cli data = .ok (cli1, r) →
        pendingEntry cli1 b = pendingEntry cli b) ∧
      (SlotsReady cli → ∃ res : Client × Bool, receiveResponse cli data = .ok res)) ∧
    (∀ (ch : Nat) (c : Chan), cli.chans[ch]? = some c → c.closed = false →
      mapGet cli.responseWaiters b ≠ some ch →
      ∃ cli1 : Client, cancelResponse cli a ch = .ok cli1 ∧
        pendingEntry cli1 b = pendingEntry cli b) ∧
    (∀ (sendNode : Node → Option Error) (query : infoQuery) (e : Error),
      (assignID cli query).2.ID = a → sendNode (iqNode (assignID cli query).2) = some e →
      ∃ cli1 : Client, sendIQAsync cli sendNode query = .ok (cli1, none, some e) ∧
        pendingEntry cli1 b = pendingEntry cli b) := by
  have hba : b ≠ a := Ne.symm hab
  refine ⟨?_, ?_, ?_⟩
  · intro data hid
    refine ⟨?_, fun hready => receiveResponse_ready cli data hready⟩
    intro cli1 r hres
    cases r with
    | false => rw [receiveResponse_false _ _ _ hres]
    | true =>
        obtain ⟨_, id, ch, c, hid2, hreg, _, _, _, hcli⟩ := receiveResponse_true _ _ _ hres
        have hida : id = a := by
          rw [hid] at hid2
          exact (AttrValue.str.inj (Option.some.inj hid2)).symm
        subst hida
        rw [hcli]
        apply pendingEntry_congr
        · exact mapGet_mapDelete_ne _ _ _ hba
        · intro cb hb
          have hne : cb ≠ ch := fun heq => hba (hdistinct b id ch (heq ▸ hb) hreg)
          exact getElem?_set_other _ _ _ _ hne
  · intro ch c hch hopen hnot
    refine ⟨{ cli with
              chans := cli.chans.set ch { c with closed := true }
              responseWaiters := mapDelete cli.responseWaiters a }, ?_, ?_⟩
    · simp [cancelResponse, closeChan, hch, hopen]
    · apply pendingEntry_congr
      · exact mapGet_mapDelete_ne _ _ _ hba
      · intro cb hb
        have hne : cb ≠ ch := fun heq => hnot (heq ▸ hb)
        exact getElem?_set_other _ _ _ _ hne
  · intro sendNode query e hida hsend
    obtain ⟨hreg, hchans, _, _⟩ := assignID_client cli query
    refine ⟨_, sendIQAsync_fail cli sendNode query e hsend, ?_⟩
    apply pendingEntry_congr
    · simp only [rolledBack, hreg, hida]
      exact mapGet_mapDelete_ne _ _ _ hba
    · intro cb hb
      simp only [rolledBack, hchans]
      exact List.getElem?_append_left (halloc b cb hb)

theorem pending_requests_independent_witness :
    receiveResponse demoRegistered (demoResponse "result") = .ok (demoDelivered, true) ∧
    pendingEntry demoDelivered "pending-7" = pendingEntry demoRegistered "pending-7" := by
  have hwf := runSteps_wellFormed ⟨"3EB0.", 41, [], []⟩ rfl [.wait "pending-7", .wait "q-1"]
    ⟨demoRegistered, [("q-1", 1), ("pending-7", 0)], []⟩ (by decide)
  have hrecv : receiveResponse demoRegistered (demoResponse "result") =
      .ok (demoDelivered, true) := by decide
  exact ⟨hrecv, ((pending_requests_independent demoRegistered "q-1" "pending-7" (by decide)
    hwf.2.1 hwf.2.2).1 (demoResponse "result") (by decide)).1 demoDelivered true hrecv⟩

/-! ## The shape of the decimal rendering -/

theorem digitChar_isDigit (d : Nat) (h : d < 10) : (Nat.digitChar d).isDigit = true := by
  interval_cases d <;> rfl

theorem digitChar_ne_zero (d : Nat) (h0 : 0 < d) (h : d < 10) : Nat.digitChar d ≠ '0' := by
  interval_cases d <;> decide

theorem toDigitsCore_step (fuel n : Nat) :
    Nat.toDigitsCore 10 (fuel + 1) n [] =
      if n / 10 = 0 then [Nat.digitChar (n % 10)]
      else Nat.toDigitsCore 10 fuel (n / 10) [] ++ [Nat.digitChar (n % 10)] := by
  simp only [Nat.toDigitsCore]
  split
  · rfl
  · rw [toDigitsCore_acc]

theorem toDigitsCore_isDigit (fuel : Nat) : ∀ (n : Nat) (c : Char),
    c ∈ Nat.toDigitsCore 10 fuel n [] → c.isDigit = true := by
  induction fuel with
  | zero => intro n c h; simp [Nat.toDigitsCore] at h
  | succ fuel ih =>
      intro n c h
      have hlt : n % 10 < 10 := Nat.mod_lt _ (by decide)
      rw [toDigitsCore_step] at h
      split at h
      · rw [List.mem_singleton.mp h]
        exact digitChar_isDigit _ hlt
      · rcases List.mem_append.mp h with h1 | h1
        · exact ih _ _ h1
        · rw [List.mem_singleton.mp h1]
          exact digitChar_isDigit _ hlt

theorem toDigitsCore_leading (fuel : Nat) : ∀ n : Nat, n < fuel → 0 < n →
    ∃ (d : Nat) (rest : List Char), 0 < d ∧ d < 10 ∧
      Nat.toDigitsCore 10 fuel n [] = Nat.digitChar d :: rest := by
  induction fuel with
  | zero => intro n h; omega
  | succ fuel ih =>
      intro n h hpos
      rw [toDigitsCore_step]
      split
      · rename_i h0
        exact ⟨n % 10, [], by omega, Nat.mod_lt _ (by decide), rfl⟩
      · rename_i h0
        obtain ⟨d, rest, hd0, hd, heq⟩ := ih (n / 10) (by omega) (by omega)
        exact ⟨d, rest ++ [Nat.digitChar (n % 10)], hd0, hd, by rw [heq]; rfl⟩

theorem formatUint_data (n : Nat) :
    (formatUint n).data = Nat.toDigitsCore 10 (n + 1) n [] := rfl

/-- C16. Identifier format: for every client with session string `p` and
counter value `c`, `generateRequestID` returns `p` followed by the base-10
rendering of `(c + 1) mod 2 ^ 64`, leaves the counter at that value and leaves
the session string and the rest of the client as they were. The rendering of
a number consists of decimal digits only, denotes that number in base 10, is
not empty, and does not start with the digit zero unless the number is 0,
which renders as "0". -/
theorem generateRequestID_format (cli : Client) :
    (generateRequestID cli).2 =
      cli.uniqueID ++ formatUint ((cli.idCounter + 1) % 2 ^ 64) ∧
    (generateRequestID cli).1.idCounter = (cli.idCounter + 1) % 2 ^ 64 ∧
    (generateRequestID cli).1.uniqueID = cli.uniqueID ∧
    (generateRequestID cli).1.responseWaiters = cli.responseWaiters ∧
    (generateRequestID cli).1.chans = cli.chans ∧
    (∀ n : Nat,
      (∀ c : Char, c ∈ (formatUint n).data → c.isDigit = true) ∧
      decodeDigits (formatUint n).data = n ∧
      (formatUint n).data ≠ [] ∧
      (0 < n → (formatUint n).data.head? ≠ some '0')) ∧
    formatUint 0 = "0" := by
  refine ⟨rfl, rfl, rfl, rfl, rfl, ?_, rfl⟩
  intro n
  rw [formatUint_data]
  refine ⟨toDigitsCore_isDigit _ _, decodeDigits_toDigitsCore _ _ (by omega), ?_, ?_⟩
  · rw [toDigitsCore_step]
    split <;> simp
  · intro hpos
    obtain ⟨d, rest, hd0, hd, heq⟩ := toDigitsCore_leading (n + 1) n (by omega) hpos
    rw [heq]
    intro h
    exact digitChar_ne_zero d hd0 hd (Option.some.inj h)

theorem generateRequestID_format_witness :
    (generateRequestID demoClient).2 = "3EB0." ++ formatUint 42 ∧
    decodeDigits (formatUint 42).data = 42 ∧
    (formatUint 42).data.head? ≠ some '0' :=
  ⟨(generateRequestID_format demoClient).1,
    ((generateRequestID_format demoClient).2.2.2.2.2.1 42).2.1,
    ((generateRequestID_format demoClient).2.2.2.2.2.1 42).2.2.2 (by decide)⟩

/-! ## The wait of `sendIQ` -/

/-- C17. Default wait bound: for every query, once the dispatch has succeeded
and the inbound nodes are handled, the timer case of `sendIQ` fires, and
`sendIQ` returns `(nil, ErrIQTimedOut)`, exactly when the time waited has
reached `query.Timeout` if that is non-zero and one minute (60 seconds, in
nanoseconds) if it is zero; before that the timer case can not fire. With a
nil `Context` the context case can never fire, and with a context it fires
exactly when the context is done, returning its error. -/
theorem sendIQ_wait_bound (cli cli1 cli2 : Client) (sendNode : Node → Option Error)
    (xmlString : Node → String) (query : infoQuery) (inbound : List Node) (elapsed : Int)
    (ch : Nat)
    (hdispatch : sendIQAsync cli sendNode query = .ok (cli1, some ch, none))
    (hinbound : deliverAll cli1 inbound = .ok cli2) :
    ((if query.Timeout = 0 then 60 * 1000000000 else query.Timeout) ≤ elapsed →
      sendIQ cli sendNode xmlString query inbound elapsed .timeAfter =
        .ok (cli2, none, some .ErrIQTimedOut)) ∧
    (elapsed < (if query.Timeout = 0 then 60 * 1000000000 else query.Timeout) →
      sendIQ cli sendNode xmlString query inbound elapsed .timeAfter = .error .blocked) ∧
    (query.Context = none →
      sendIQ cli sendNode xmlString query inbound elapsed .ctxDone = .error .blocked) ∧
    (∀ c : Context, query.Context = some c → c.err = none →
      sendIQ cli sendNode xmlString query inbound elapsed .ctxDone = .error .blocked) ∧
    (∀ (c : Context) (e : Error), query.Context = some c → c.err = some e →
      sendIQ cli sendNode xmlString query inbound elapsed .ctxDone =
        .ok (cli2, none, some e)) := by
  have hbound : effectiveTimeout query =
      if query.Timeout = 0 then 60 * 1000000000 else query.Timeout := by
    simp [effectiveTimeout, Minute]
  refine ⟨?_, ?_, ?_, ?_, ?_⟩
  · intro h
    rw [← hbound] at h
    simp only [sendIQ, hdispatch, hinbound, if_pos h]
  · intro h
    rw [← hbound] at h
    simp only [sendIQ, hdispatch, hinbound, if_neg (not_le.mpr h)]
  · intro h
    simp only [sendIQ, hdispatch, hinbound, effectiveContext, h, Context.Background]
  · intro c h hc
    simp only [sendIQ, hdispatch, hinbound, effectiveContext, h, hc]
  · intro c e h hc
    simp only [sendIQ, hdispatch, hinbound, effectiveContext, h, hc]

theorem sendIQ_wait_bound_witness :
    sendIQ demoClient sendAccept showTag { demoQuery with Timeout := 0 } [] 60000000000
        .timeAfter = .ok (demoRegistered, none, some .ErrIQTimedOut) ∧
    sendIQ demoClient sendAccept showTag { demoQuery with Timeout := 0 } [] 59999999999
        .timeAfter = .error .blocked ∧
    sendIQ demoClient sendAccept showTag { demoQuery with Timeout := 0 } [] 59999999999
        .ctxDone = .error .blocked :=
  ⟨(sendIQ_wait_bound demoClient demoRegistered demoRegistered sendAccept showTag
      { demoQuery with Timeout := 0 } [] 60000000000 1 (by decide) (by decide)).1 (by decide),
   (sendIQ_wait_bound demoClient demoRegistered demoRegistered sendAccept showTag
      { demoQuery with Timeout := 0 } [] 59999999999 1 (by decide) (by decide)).2.1
      (by decide),
   (sendIQ_wait_bound demoClient demoRegistered demoRegistered sendAccept showTag
      { demoQuery with Timeout := 0 } [] 59999999999 1 (by decide) (by decide)).2.2.1
      (by decide)⟩

/-! ## Rollback and re-registration -/

/-- C18. Atomic rollback on send failure: for every registry state and every
query whose id (explicit or generated) is not in the registry, a
`sendIQAsync` call whose send fails with `e` returns `(nil, e)` and leaves
the registry exactly as it was before the call. The session string is
unchanged, every cell that existed keeps its content, and the id counter
changes only when the id was generated. -/
theorem sendIQAsync_failure_restores_registry (cli : Client)
    (sendNode : Node → Option Error) (query : infoQuery) (e : Error)
    (hfresh : mapGet cli.responseWaiters (assignID cli query).2.ID = none)
    (hsend : sendNode (iqNode (assignID cli query).2) = some e) :
    ∃ cli1 : Client,
      sendIQAsync cli sendNode query = .ok (cli1, none, some e) ∧
      cli1.responseWaiters = cli.responseWaiters ∧
      cli1.uniqueID = cli.uniqueID ∧
      cli1.idCounter =
        (if query.ID = "" then (cli.idCounter + 1) % 2 ^ 64 else cli.idCounter) ∧
      (∀ i : Nat, i < cli.chans.length → cli1.chans[i]? = cli.chans[i]?) := by
  obtain ⟨hreg, hchans, huid, hctr⟩ := assignID_client cli query
  refine ⟨_, sendIQAsync_fail cli sendNode query e hsend, ?_, ?_, ?_, ?_⟩
  · simp only [rolledBack, hreg]
    exact mapDelete_of_absent _ _ hfresh
  · simp only [rolledBack, huid]
  · simp only [rolledBack, hctr]
  · intro i hi
    simp only [rolledBack, hchans]
    exact List.getElem?_append_left hi

theorem sendIQAsync_failure_restores_registry_witness :
    ∃ cli1 : Client,
      sendIQAsync demoClient sendRefuse { demoQuery with ID := "" } =
        .ok (cli1, none, some (.other "websocket not connected")) ∧
      cli1.responseWaiters = demoClient.responseWaiters ∧
      cli1.uniqueID = demoClient.uniqueID ∧
      cli1.idCounter = 42 ∧
      (∀ i : Nat, i < demoClient.chans.length → cli1.chans[i]? = demoClient.chans[i]?) :=
  sendIQAsync_failure_restores_registry demoClient sendRefuse { demoQuery with ID := "" }
    (.other "websocket not connected") (by decide) (by decide)

theorem count_mapSet (m : List (String × Nat)) (key : String) (v : Nat) :
    ((mapSet m key v).filter (fun e => decide (e.1 = key))).length = 1 := by
  have h : (mapDelete m key).filter (fun e => decide (e.1 = key)) = [] := by
    simp only [mapDelete, List.filter_filter]
    apply List.filter_eq_nil_iff.mpr
    intro a _
    simp
  simp only [mapSet, List.filter_cons, decide_True, if_true, h, List.length_singleton]

/-- C19. Re-registration replaces the pending slot: for every registry state
in which the id is registered with a slot `c1` that is open and empty,
`waitResponse` for the same id succeeds, returns a new slot `c2` that is not
`c1`, and maps the id to `c2`, the registry holding exactly one entry for
the id. A following `receiveResponse` with an "iq" node for the id returns
true and puts the node into `c2`; `c1` is still open and empty, so a receive
on `c1` is not ready: its consumer gets neither a message nor a close. -/
theorem waitResponse_reregistration (cli : Client) (id : String) (c1 : Nat) (data : Node)
    (hreg : mapGet cli.responseWaiters id = some c1)
    (hc1 : cli.chans[c1]? = some ⟨1, [], false⟩)
    (htag : data.Tag = "iq")
    (hid : mapGet data.Attrs "id" = some (.str id)) :
    (waitResponse cli id).2 ≠ c1 ∧
    cli.chans[(waitResponse cli id).2]? = none ∧
    (waitResponse cli id).1.chans[(waitResponse cli id).2]? = some ⟨1, [], false⟩ ∧
    mapGet (waitResponse cli id).1.responseWaiters id = some (waitResponse cli id).2 ∧
    ((waitResponse cli id).1.responseWaiters.filter (fun e => decide (e.1 = id))).length = 1 ∧
    ∃ cli2 : Client,
      receiveResponse (waitResponse cli id).1 data = .ok (cli2, true) ∧
      cli2.chans[(waitResponse cli id).2]? = some ⟨1, [data], false⟩ ∧
      cli2.chans[c1]? = some ⟨1, [], false⟩ ∧
      chanRecv cli2.chans c1 = none ∧
      mapGet cli2.responseWaiters id = none := by
  have _ := hreg
  have hlt : c1 < cli.chans.length := lt_of_getElem?_eq_some _ _ _ hc1
  have hc1new : (delivered cli id data).chans[c1]? = some ⟨1, [], false⟩ := by
    simp only [delivered]
    rw [List.getElem?_append_left hlt]
    exact hc1
  refine ⟨?_, ?_, ?_, ?_, ?_, delivered cli id data,
    receiveResponse_waitResponse cli id data htag hid, delivered_slot cli id data, hc1new,
    ?_, delivered_absent cli id data⟩
  · simp only [waitResponse_eq]
    omega
  · simp only [waitResponse_eq]
    exact List.getElem?_eq_none (Nat.le_refl _)
  · simp [waitResponse_eq]
  · simp [waitResponse_eq, mapGet_mapSet_self]
  · simp only [waitResponse_eq]
    exact count_mapSet _ _ _
  · simp only [chanRecv, hc1new]
    rfl

theorem waitResponse_reregistration_witness :
    ∃ cli2 : Client,
      receiveResponse (waitResponse demoRegistered "q-1").1 (demoResponse "result") =
        .ok (cli2, true) ∧
      cli2.chans[2]? = some ⟨1, [demoResponse "result"], false⟩ ∧
      cli2.chans[1]? = some ⟨1, [], false⟩ ∧
      chanRecv cli2.chans 1 = none ∧
      mapGet cli2.responseWaiters "q-1" = none :=
  (waitResponse_reregistration demoRegistered "q-1" 1 (demoResponse "result")
    (by decide) (by decide) (by decide) (by decide)).2.2.2.2.2

/-! ## Correlation soundness -/

theorem classifiedByType_of_iq (xmlString : Node → String) (res : Node)
    (htag : res.Tag = "iq") :
    ClassifiedByType (mapGet res.Attrs "type") (classify xmlString res).2 := by
  by_cases hres : mapGet res.Attrs "type" = some (.str "result")
  · rw [classify_result xmlString res htag hres, hres]
    refine ⟨by simp, ?_, ?_⟩
    · constructor
      · rintro ⟨e, he, _⟩
        exact absurd he (by simp)
      · intro h
        exact absurd h (by decide)
    · constructor
      · rintro ⟨e, he, _⟩
        exact absurd he (by simp)
      · intro h
        exact absurd rfl h.1
  · by_cases herr : mapGet res.Attrs "type" = some (.str "error")
    · rw [classify_error xmlString res htag herr, herr]
      refine ⟨?_, ?_, ?_⟩
      · constructor
        · intro h
          exact absurd h (by simp)
        · intro h
          exact absurd h (by decide)
      · constructor
        · intro _
          rfl
        · intro _
          exact ⟨_, rfl, by simp [Error.Is]⟩
      · constructor
        · rintro ⟨e, he, his⟩
          have he2 := (Option.some.inj he).symm
          subst he2
          simp [Error.Is] at his
        · intro h
          exact absurd rfl h.2
    · have hne : ¬ (res.Tag = "iq" ∧ (mapGet res.Attrs "type" = some (.str "result") ∨
          mapGet res.Attrs "type" = some (.str "error"))) := by
        rintro ⟨_, h | h⟩
        · exact hres h
        · exact herr h
      rw [classify_unexpected xmlString res hne]
      refine ⟨?_, ?_, ?_⟩
      · constructor
        · intro h
          exact absurd h (by simp)
        · intro h
          exact absurd h hres
      · constructor
        · rintro ⟨e, he, his⟩
          have he2 := (Option.some.inj he).symm
          subst he2
          simp [Error.Is] at his
        · intro h
          exact absurd h herr
      · constructor
        · intro _
          exact ⟨hres, herr⟩
        · intro _
          exact ⟨_, rfl, by simp [Error.Is]⟩

theorem slotCorrelated_receive (cli cli1 : Client) (data : Node) (b : Bool) (ch : Nat)
    (rid : String) (hslot : SlotCorrelated cli ch rid)
    (h : receiveResponse cli data = .ok (cli1, b)) : SlotCorrelated cli1 ch rid := by
  cases b with
  | false => rw [receiveResponse_false _ _ _ h]; exact hslot
  | true =>
      obtain ⟨htag, id, w, c, hid, hreg, hw, _, _, hcli⟩ := receiveResponse_true _ _ _ h
      obtain ⟨hown, c0, hc0, hbuf⟩ := hslot
      rw [hcli]
      refine ⟨fun k hk => hown k (mapGet_mapDelete_some _ _ _ _ hk).2, ?_⟩
      by_cases hwch : w = ch
      · subst hwch
        have hidrid : id = rid := hown id hreg
        have hcc : c = c0 := Option.some.inj (hw.symm.trans hc0)
        refine ⟨{ c with buf := c.buf ++ [data] }, getElem?_set_same _ _ _ _ hw, ?_⟩
        intro n hn
        rcases List.mem_append.mp hn with h1 | h1
        · exact hbuf n (hcc ▸ h1)
        · rw [List.mem_singleton.mp h1, ← hidrid]
          exact ⟨htag, hid⟩
      · refine ⟨c0, ?_, hbuf⟩
        simp only
        rw [getElem?_set_other _ _ _ _ (Ne.symm hwch)]
        exact hc0

theorem slotCorrelated_deliverAll (inbound : List Node) : ∀ (cli cli1 : Client) (ch : Nat)
    (rid : String), SlotCorrelated cli ch rid → deliverAll cli inbound = .ok cli1 →
    SlotCorrelated cli1 ch rid := by
  induction inbound with
  | nil =>
      intro cli cli1 ch rid hslot h
      have heq : cli = cli1 := Except.ok.inj h
      rw [← heq]
      exact hslot
  | cons data rest ih =>
      intro cli cli1 ch rid hslot h
      simp only [deliverAll] at h
      split at h
      · exact absurd h (by simp)
      · rename_i cli2 b hrecv
        exact ih cli2 cli1 ch rid (slotCorrelated_receive cli cli2 data b ch rid hslot hrecv) h

theorem slotCorrelated_waitResponse (cli : Client) (rid : String)
    (halloc : SlotsAllocated cli) :
    SlotCorrelated (waitResponse cli rid).1 cli.chans.length rid := by
  simp only [waitResponse_eq]
  refine ⟨?_, ⟨1, [], false⟩, heap_getElem_new _ _, ?_⟩
  · intro k hk
    rcases mapGet_mapSet_some _ _ _ _ _ hk with ⟨h, _⟩ | ⟨_, hget⟩
    · exact h
    · have := halloc k _ hget
      omega
  · intro n hn
    simp at hn

theorem chanRecv_mem (heap heap1 : List Chan) (ch : Nat) (res : Node)
    (h : chanRecv heap ch = some (heap1, some res)) :
    ∃ c : Chan, heap[ch]? = some c ∧ res ∈ c.buf := by
  unfold chanRecv at h
  split at h
  · exact absurd h (by simp)
  · rename_i c hc
    split at h
    · rename_i x rest hbuf
      have hx : x = res := Option.some.inj (Prod.mk.inj (Option.some.inj h)).2
      exact ⟨c, hc, by rw [hbuf, ← hx]; exact List.mem_cons_self _ _⟩
    · split at h
      · exact absurd (Prod.mk.inj (Option.some.inj h)).2 (by simp)
      · exact absurd h (by simp)

/-- A node `sendIQ` returns was taken from the slot of the query by the
receive case, after a successful dispatch and the handling of the inbound
nodes. -/
theorem sendIQ_returns_node (cli cli3 : Client) (sendNode : Node → Option Error)
    (xmlString : Node → String) (query : infoQuery) (inbound : List Node) (elapsed : Int)
    (taken : SelectCase) (res : Node) (err : Option Error)
    (h : sendIQ cli sendNode xmlString query inbound elapsed taken =
      .ok (cli3, some res, err)) :
    ∃ (cli2 : Client) (heap : List Chan),
      deliverAll (waitResponse (assignID cli query).1 (assignID cli query).2.ID).1 inbound =
        .ok cli2 ∧
      chanRecv cli2.chans (assignID cli query).1.chans.length = some (heap, some res) ∧
      err = (classify xmlString res).2 := by
  cases hsend : sendNode (iqNode (assignID cli query).2) with
  | some e =>
      simp only [sendIQ, sendIQAsync_fail cli sendNode query e hsend] at h
      simp at h
  | none =>
      simp only [sendIQ, sendIQAsync_ok cli sendNode query hsend] at h
      cases hd : deliverAll (waitResponse (assignID cli query).1 (assignID cli query).2.ID).1
          inbound with
      | error f => simp [hd] at h
      | ok cli2 =>
          simp only [hd] at h
          cases taken with
          | ctxDone =>
              simp only at h
              split at h <;> simp at h
          | timeAfter =>
              simp only at h
              split at h <;> simp at h
          | recv =>
              simp only [Option.some_bind] at h
              cases hr : chanRecv cli2.chans (assignID cli query).1.chans.length with
              | none => simp [hr] at h
              | some pr =>
                  obtain ⟨heap, o⟩ := pr
                  cases o with
                  | none => simp [hr] at h
                  | some r =>
                      simp only [hr, classify_fst] at h
                      have h2 := (Prod.mk.inj (Except.ok.inj h)).2
                      have h3 := Prod.mk.inj h2
                      have hres : r = res := Option.some.inj h3.1
                      subst hres
                      exact ⟨cli2, heap, rfl, hr, h3.2.symm⟩

/-- C20. Correlation soundness: whenever `receiveResponse` places a node into
a slot (it returns true), the node has tag "iq" and a string id attribute
equal to a key of the registry, and the slot it is appended to is the one
registered under that key; the classification `sendIQ` makes of such a node
is determined by its type attribute alone. Consequently, from every client
whose registered slots are cells of the heap, every node `sendIQ` returns has
tag "iq" and the id of the query, and the error returned with it is nil
exactly for the type "result", wraps `ErrIQError` exactly for "error", and
wraps `ErrIQUnexpectedResponse` exactly when the type is neither. -/
theorem correlation_sound (xmlString : Node → String) :
    (∀ (cli cli1 : Client) (data : Node), receiveResponse cli data = .ok (cli1, true) →
      data.Tag = "iq" ∧
      (∃ (id : String) (ch : Nat) (c : Chan),
        mapGet data.Attrs "id" = some (.str id) ∧
        mapGet cli.responseWaiters id = some ch ∧
        cli.chans[ch]? = some c ∧
        cli1.chans[ch]? = some { c with buf := c.buf ++ [data] }) ∧
      ClassifiedByType (mapGet data.Attrs "type") (classify xmlString data).2) ∧
    (∀ (cli cli3 : Client) (sendNode : Node → Option Error) (query : infoQuery)
      (inbound : List Node) (elapsed : Int) (taken : SelectCase) (res : Node)
      (err : Option Error), SlotsAllocated cli →
      sendIQ cli sendNode xmlString query inbound elapsed taken = .ok (cli3, some res, err) →
      res.Tag = "iq" ∧
      mapGet res.Attrs "id" = some (.str (assignID cli query).2.ID) ∧
      ClassifiedByType (mapGet res.Attrs "type") err) := by
  constructor
  · intro cli cli1 data h
    obtain ⟨htag, id, ch, c, hid, hreg, hch, _, _, hcli⟩ := receiveResponse_true _ _ _ h
    refine ⟨htag, ⟨id, ch, c, hid, hreg, hch, ?_⟩, classifiedByType_of_iq xmlString data htag⟩
    rw [hcli]
    exact getElem?_set_same _ _ _ _ hch
  · intro cli cli3 sendNode query inbound elapsed taken res err halloc h
    obtain ⟨cli2, heap, hd, hr, herr⟩ := sendIQ_returns_node _ _ _ _ _ _ _ _ _ _ h
    have halloc0 : SlotsAllocated (assignID cli query).1 := by
      obtain ⟨hreg, hchans, _, _⟩ := assignID_client cli query
      intro k ch hk
      rw [hchans]
      rw [hreg] at hk
      exact halloc k ch hk
    have hslot := slotCorrelated_deliverAll inbound _ cli2 _ _
      (slotCorrelated_waitResponse (assignID cli query).1 (assignID cli query).2.ID halloc0) hd
    obtain ⟨c, hc, hmem⟩ := chanRecv_mem _ _ _ _ hr
    obtain ⟨_, c0, hc0, hbuf⟩ := hslot
    have hcc : c = c0 := Option.some.inj (hc.symm.trans hc0)
    obtain ⟨htag, hid⟩ := hbuf res (hcc ▸ hmem)
    rw [herr]
    exact ⟨htag, hid, classifiedByType_of_iq xmlString res htag⟩

theorem correlation_sound_witness :
    sendIQ demoClient sendAccept showTag demoQuery [demoResponse "error"] 0 .recv =
      .ok ({ demoClient with
              responseWaiters := [("pending-7", 0)]
              chans := [⟨1, [], false⟩, ⟨1, [], false⟩] },
        some (demoResponse "error"), some (.wrap .ErrIQError ": <iq/>")) ∧
    ClassifiedByType (mapGet (demoResponse "error").Attrs "type")
      (some (.wrap .ErrIQError ": <iq/>")) := by
  have hwf := runSteps_wellFormed ⟨"3EB0.", 41, [], []⟩ rfl [.wait "pending-7"]
    ⟨demoClient, [("pending-7", 0)], []⟩ (by decide)
  have hrun : sendIQ demoClient sendAccept showTag demoQuery [demoResponse "error"] 0 .recv =
      .ok ({ demoClient with
              responseWaiters := [("pending-7", 0)]
              chans := [⟨1, [], false⟩, ⟨1, [], false⟩] },
        some (demoResponse "error"), some (.wrap .ErrIQError ": <iq/>")) := by decide
  exact ⟨hrun, ((correlation_sound showTag).2 demoClient _ sendAccept demoQuery
    [demoResponse "error"] 0 .recv (demoResponse "error") _ hwf.2.2 hrun).2.2⟩

end Whatsmeow
